import Mathlib

/-!
Verification of the floor-plan generation and CAD-export core of the
`ai-floors-plan-backed` service.

The JavaScript source is shallowly embedded: JS numbers are modelled as `Rat`
(the claims under scrutiny only involve exact decimal constants, so rational
arithmetic is faithful), possibly-missing object fields are modelled as
`Option`, and a JS function that can throw is modelled as a function into
`Except String _` whose `.error` case carries the thrown message.  JS `Map`
objects are modelled as association lists in insertion order, which is exactly
the iteration order a JS `Map` guarantees.
-/

set_option maxHeartbeats 4000000
set_option maxRecDepth 4000

attribute [local semireducible] Rat.add Rat.mul Rat.sub Rat.inv Rat.ofScientific

/-- Decidable equality for `Except`, used to evaluate embedded functions on
concrete inputs. -/
instance exceptDecEq {α β : Type} [DecidableEq α] [DecidableEq β] : DecidableEq (Except α β)
  | .error a, .error b =>
    if h : a = b then .isTrue (congrArg Except.error h)
    else .isFalse (fun hh => h (Except.error.inj hh))
  | .error _, .ok _ => .isFalse (fun hh => Except.noConfusion hh)
  | .ok _, .error _ => .isFalse (fun hh => Except.noConfusion hh)
  | .ok a, .ok b =>
    if h : a = b then .isTrue (congrArg Except.ok h)
    else .isFalse (fun hh => h (Except.ok.inj hh))

/-- JS truthiness of an optional string: a missing field and `""` are falsy. -/
def strFalsy : Option String → Bool
  | none => true
  | some s => s.data.isEmpty

/-- JS `o || d` for an optional string field `o` and default `d`. -/
def jsOrStr (o : Option String) (d : String) : String :=
  match o with
  | some s => if s.data.isEmpty then d else s
  | none => d

/-- JS truthiness of an optional number: a missing field and `0` are falsy
(the embedding carries no `NaN`). -/
def numFalsy : Option Rat → Bool
  | none => true
  | some q => q = 0

/-- JS `o || d` for an optional numeric field `o` and default `d`. -/
def jsOrNum (o : Option Rat) (d : Rat) : Rat :=
  match o with
  | some q => if q = 0 then d else q
  | none => d

/-- JS `Math.round`, which is `floor (x + 0.5)` (also for negative halves). -/
def jsRound (q : Rat) : Int := ⌊q + 1 / 2⌋

/-- Fuel-bounded linear search for the integer square root; `n` is the radicand. -/
def sqrtLinearGo (n : Nat) : Nat → Nat → Nat
  | 0, k => k
  | fuel + 1, k => if (k + 1) * (k + 1) ≤ n then sqrtLinearGo n fuel (k + 1) else k

/-- Kernel-computable integer square root: the largest `k` with `k * k ≤ n`. -/
def sqrtLinear (n : Nat) : Nat := sqrtLinearGo n n 0

/-- Models JS `Math.round(Math.sqrt a)` for `a ≥ 0`.  `round (sqrt a)` is the
least `k` with `4 * a < (2 * k + 1) ^ 2`, which equals
`(⌊sqrt (4 * a)⌋ + 1) / 2` in integer division.  A negative radicand (JS would
yield `NaN`) is modelled as `0`; no claim depends on that case. -/
def jsRoundSqrt (a : Rat) : Nat := (sqrtLinear (⌊4 * a⌋).toNat + 1) / 2

/-- Deterministic fixed-point approximation of JS `Math.sqrt` (six decimal
digits), used only where the DXF generator falls back to `Math.sqrt(areaSqft)`.
JS `Math.sqrt` is likewise a pure deterministic function; the exact value is
irrelevant to the claims, which concern determinism only. -/
def ratSqrtApx (a : Rat) : Rat :=
  if a ≤ 0 then 0 else (sqrtLinear (⌊a * 1000000000000⌋).toNat : Rat) / 1000000

/-- Helper for `jsIncludes`: does the haystack start with the needle? -/
def charsStartWith : List Char → List Char → Bool
  | _, [] => true
  | [], _ :: _ => false
  | h :: hs, n :: ns => h = n && charsStartWith hs ns

/-- Helper for `jsIncludes`: does the needle occur anywhere in the haystack? -/
def charsContain (needle : List Char) : List Char → Bool
  | [] => needle.isEmpty
  | h :: t => charsStartWith (h :: t) needle || charsContain needle t

/-- JS `String.prototype.includes` (substring containment). -/
def jsIncludes (s needle : String) : Bool := charsContain needle.data s.data

/-- ASCII lowercasing of one character, as JS `toLowerCase` acts on the ASCII
room/type names this system manipulates. -/
def lowerChar (c : Char) : Char :=
  if 'A' ≤ c ∧ c ≤ 'Z' then Char.ofNat (c.toNat + 32) else c

/-- JS `String.prototype.toLowerCase` restricted to ASCII, kernel-computable. -/
def jsToLower (s : String) : String := String.mk (s.data.map lowerChar)

/-- Prints a JS number in an error-message interpolation.  Integers (the only
case the claims exercise) print exactly as JS does; non-integers are printed
in `num/den` notation, which is deterministic but differs from JS decimal
printing. -/
def jsNumToString (q : Rat) : String :=
  if q.den = 1 then q.num.repr else q.num.repr ++ "/" ++ q.den.repr

/-- A 2D position in feet, `room.position` in the source. -/
structure Position where
  x : Rat
  y : Rat
deriving DecidableEq, Repr

/-- Room dimensions in feet, `room.dimensions` in the source. -/
structure Dimensions where
  length : Rat
  width : Rat
deriving DecidableEq, Repr

/-- Building envelope, `plan.buildingDimensions` in the source. -/
structure BuildingDims where
  width : Rat
  depth : Rat
deriving DecidableEq, Repr

/-- The wall a door or window sits on.  The source switches on the string
`door.wall` with cases for the four compass walls and no default: any other
value produces no geometry, modelled by `otherWall`. -/
inductive Wall where
  | north
  | south
  | east
  | west
  | otherWall
deriving DecidableEq, Repr

/-- A door as delivered by the model response; the generator defaults a falsy
`width` to 3 and a falsy `position` to 0. -/
structure Door where
  wall : Wall
  position : Option Rat
  width : Option Rat
deriving DecidableEq, Repr

/-- A window as delivered by the model response; the generator defaults a
falsy `width` to 4 and a falsy `position` to 0. -/
structure Window where
  wall : Wall
  position : Option Rat
  width : Option Rat
deriving DecidableEq, Repr

namespace Planner

/-- A normalized room, the shape produced by `parseAndValidateResponse` and
consumed by `validatePlanGeometry` and the DXF generator.  `areaSqft`,
`dimensions` and `position` stay optional: the normalizer cannot always fill
them and the validator explicitly guards (incompletely) against their
absence. -/
structure NRoom where
  id : String
  name : String
  type : String
  areaSqft : Option Rat
  dimensions : Option Dimensions
  position : Option Position
  doors : List Door
  windows : List Window
deriving DecidableEq, Repr

/-- A normalized floor (`floor` objects after `parseAndValidateResponse`). -/
structure NFloor where
  level : String
  totalArea : Option Rat
  rooms : List NRoom
deriving DecidableEq, Repr

/-- The `plan.exterior` default object. -/
structure Exterior where
  mainEntranceWall : String
  mainEntrancePosition : Rat
  style : String
deriving DecidableEq, Repr

/-- A normalized plan (output of `parseAndValidateResponse`, input of
`validatePlanGeometry` and of the CAD pipeline). -/
structure NPlan where
  buildingType : String
  totalArea : Option Rat
  buildingDimensions : Option BuildingDims
  floors : List NFloor
  exterior : Option Exterior
  designNotes : List String
  validationWarnings : Option (List String)
deriving DecidableEq, Repr

/-- The position/dimensions pair `roomsOverlap` reads from each room. -/
structure RoomGeom where
  position : Position
  dimensions : Dimensions
deriving DecidableEq, Repr

/-- `PlannerService.roomsOverlap` (planner service): axis-aligned rectangle
overlap with a 0.5 ft shared-wall tolerance. -/
def roomsOverlap (room1 room2 : RoomGeom) : Bool :=
  let r1left := room1.position.x
  let r1right := room1.position.x + room1.dimensions.width
  let r1top := room1.position.y
  let r1bottom := room1.position.y + room1.dimensions.length
  let r2left := room2.position.x
  let r2right := room2.position.x + room2.dimensions.width
  let r2top := room2.position.y
  let r2bottom := room2.position.y + room2.dimensions.length
  let tolerance : Rat := 0.5
  !(decide (r1right ≤ r2left + tolerance) || decide (r1left ≥ r2right - tolerance)
    || decide (r1bottom ≤ r2top + tolerance) || decide (r1top ≥ r2bottom - tolerance))

/-- The two in-bounds checks and the negative-position check
`validatePlanGeometry` performs for one room (source lines 309-321), in push
order. -/
def roomBoundsErrors (name : String) (position : Position) (dimensions : Dimensions)
    (buildingWidth buildingDepth : Rat) : List String :=
  (if buildingWidth + 1 < position.x + dimensions.width then
    ["Room \"" ++ name ++ "\" exceeds building width (" ++ jsNumToString position.x
      ++ " + " ++ jsNumToString dimensions.width ++ " > " ++ jsNumToString buildingWidth ++ ")"]
   else [])
  ++ (if buildingDepth + 1 < position.y + dimensions.length then
    ["Room \"" ++ name ++ "\" exceeds building depth (" ++ jsNumToString position.y
      ++ " + " ++ jsNumToString dimensions.length ++ " > " ++ jsNumToString buildingDepth ++ ")"]
   else [])
  ++ (if position.x < 0 ∨ position.y < 0 then
    ["Room \"" ++ name ++ "\" has negative position"]
   else [])

/-- The fixed minimum-size table of `validatePlanGeometry`, in `Object.entries`
order. -/
def minSizes : List (String × Rat) :=
  [("bedroom", 70), ("bathroom", 35), ("kitchen", 50),
   ("living", 120), ("dining", 80), ("office", 64)]

/-- Walks the minimum-size table: an error is pushed (and the loop broken) at
the first entry whose key occurs in the lowercased room type and whose minimum
exceeds the room area; `undefined < n` is false in JS, so a missing area never
fails. -/
def minSizeErrorsGo (room : NRoom) (roomType : String) : List (String × Rat) → List String
  | [] => []
  | (ty, minSize) :: rest =>
    if jsIncludes roomType ty && (match room.areaSqft with | some a => decide (a < minSize) | none => false) then
      ["Room \"" ++ room.name ++ "\" (" ++ (match room.areaSqft with | some a => jsNumToString a | none => "undefined")
        ++ " sqft) is below minimum size for " ++ ty ++ " (" ++ jsNumToString minSize ++ " sqft)"]
    else minSizeErrorsGo room roomType rest

/-- The minimum-room-size policy of `validatePlanGeometry` for one room. -/
def minSizeErrors (room : NRoom) : List String :=
  minSizeErrorsGo room (jsToLower room.type) minSizes

/-- The overlap scan `validatePlanGeometry` runs for one room against the rooms
that follow it on the same floor.  `roomsOverlap` reads `position.x` and
`dimensions.width` of the other room unguarded, so a later room that lacks
either field makes the whole validator throw a `TypeError`, modelled as
`.error`. -/
def checkOverlaps (level : String) (room : NRoom) (g1 : RoomGeom) :
    List NRoom → Except String (List String)
  | [] => .ok []
  | other :: rest =>
    match other.position, other.dimensions with
    | some p2, some d2 => do
      let es ← checkOverlaps level room g1 rest
      .ok ((if roomsOverlap g1 ⟨p2, d2⟩ then
              ["Rooms \"" ++ room.name ++ "\" and \"" ++ other.name ++ "\" overlap on " ++ level]
            else []) ++ es)
    | _, _ => .error "TypeError: Cannot read properties of undefined"

/-- All checks `validatePlanGeometry` performs for one room, in source order:
missing-geometry guard, bounds, overlaps against later rooms, minimum size. -/
def checkRoom (bw bd : Rat) (level : String) (room : NRoom) (laterRooms : List NRoom) :
    Except String (List String) :=
  match room.position, room.dimensions with
  | some position, some dimensions => do
    let overlaps ← checkOverlaps level room ⟨position, dimensions⟩ laterRooms
    .ok (roomBoundsErrors room.name position dimensions bw bd ++ overlaps ++ minSizeErrors room)
  | _, _ => .ok ["Room \"" ++ room.name ++ "\" on " ++ level ++ " missing position or dimensions"]

/-- The per-floor room loop of `validatePlanGeometry`. -/
def checkFloorRooms (bw bd : Rat) (level : String) : List NRoom → Except String (List String)
  | [] => .ok []
  | room :: rest => do
    let e1 ← checkRoom bw bd level room rest
    let e2 ← checkFloorRooms bw bd level rest
    .ok (e1 ++ e2)

/-- The floor loop of `validatePlanGeometry`. -/
def checkFloors (bw bd : Rat) : List NFloor → Except String (List String)
  | [] => .ok []
  | floor :: rest => do
    let e1 ← checkFloorRooms bw bd floor.level floor.rooms
    let e2 ← checkFloors bw bd rest
    .ok (e1 ++ e2)

/-- The `{valid, errors}` report `validatePlanGeometry` returns. -/
structure VReport where
  valid : Bool
  errors : List String
deriving DecidableEq, Repr

/-- `PlannerService.validatePlanGeometry`: geometric validation of a plan.
A thrown JS `TypeError` (see `checkOverlaps`) surfaces as `.error`. -/
def validatePlanGeometry (plan : NPlan) : Except String VReport :=
  match plan.buildingDimensions with
  | none => .ok ⟨false, ["Missing building dimensions"]⟩
  | some bd => do
    let errors ← checkFloors bd.width bd.depth plan.floors
    .ok ⟨errors.isEmpty, errors⟩

end Planner

namespace Planner

/-- A raw room as decoded from the model's JSON answer: every field may be
missing. -/
structure RawRoom where
  id : Option String
  name : Option String
  type : Option String
  areaSqft : Option Rat
  dimensions : Option Dimensions
  position : Option Position
  doors : Option (List Door)
  windows : Option (List Window)
deriving DecidableEq, Repr

/-- A raw floor as decoded from the model's JSON answer.  `rooms = none`
models a missing (or non-array) `rooms` field. -/
structure RawFloor where
  level : Option String
  totalArea : Option Rat
  rooms : Option (List RawRoom)
deriving DecidableEq, Repr

/-- A raw plan as decoded from the model's JSON answer.  `floors = none`
models a missing (or non-array) `floors` field. -/
structure RawPlan where
  buildingType : Option String
  totalArea : Option Rat
  buildingDimensions : Option BuildingDims
  floors : Option (List RawFloor)
  exterior : Option Exterior
  designNotes : Option (List String)
deriving DecidableEq, Repr

/-- The request `meta` hints.  Only `buildingType` is read by the normalizer;
the remaining optional hint fields feed the prompt, which is outside the
claims, and are omitted. -/
structure PlanMeta where
  buildingType : Option String
deriving DecidableEq, Repr

/-- `PlannerService.inferRoomType`: keyword-substring room-type inference,
first match wins. -/
def inferRoomType (name : String) : String :=
  let nameLower := jsToLower name
  if jsIncludes nameLower "bedroom" || jsIncludes nameLower "master" then "bedroom"
  else if jsIncludes nameLower "bath" || jsIncludes nameLower "toilet" || jsIncludes nameLower "wc" then "bathroom"
  else if jsIncludes nameLower "kitchen" then "kitchen"
  else if jsIncludes nameLower "living" || jsIncludes nameLower "lounge" || jsIncludes nameLower "drawing" then "living"
  else if jsIncludes nameLower "dining" then "dining"
  else if jsIncludes nameLower "office" || jsIncludes nameLower "study" then "office"
  else if jsIncludes nameLower "corridor" || jsIncludes nameLower "hall" || jsIncludes nameLower "lobby" then "corridor"
  else if jsIncludes nameLower "stair" then "staircase"
  else if jsIncludes nameLower "storage" || jsIncludes nameLower "closet" || jsIncludes nameLower "store" then "storage"
  else if jsIncludes nameLower "garage" || jsIncludes nameLower "parking" then "garage"
  else if jsIncludes nameLower "balcony" || jsIncludes nameLower "porch" || jsIncludes nameLower "veranda" then "outdoor"
  else "room"

/-- `PlannerService.calculateBuildingDimensions`: bounding box of the rooms
that carry both position and dimensions, floored at 20 x 20; 40 x 30 when the
room list is empty. -/
def calculateBuildingDimensions (rooms : List NRoom) : BuildingDims :=
  if rooms.isEmpty then ⟨40, 30⟩
  else
    let mm := rooms.foldl (fun (acc : Rat × Rat) room =>
      match room.position, room.dimensions with
      | some position, some dimensions =>
        let roomRight := position.x + dimensions.width
        let roomBottom := position.y + dimensions.length
        ((if acc.1 < roomRight then roomRight else acc.1),
         (if acc.2 < roomBottom then roomBottom else acc.2))
      | _, _ => acc) (0, 0)
    ⟨max mm.1 20, max mm.2 20⟩

/-- The per-room fill-in pass of `parseAndValidateResponse` (source lines
199-243), with the same mutation order: id, name (from the raw type), type
(inferred from the filled name), area (from dimensions), dimensions (from the
current area), position, doors, windows. -/
def normalizeRoom (floorIndex roomIndex : Nat) (room : RawRoom) : NRoom :=
  let id := if strFalsy room.id then "room-" ++ Nat.repr floorIndex ++ "-" ++ Nat.repr roomIndex
            else room.id.getD ""
  let name := if strFalsy room.name then jsOrStr room.type ("Room " ++ Nat.repr (roomIndex + 1))
              else room.name.getD ""
  let rtype := if strFalsy room.type then inferRoomType name else room.type.getD ""
  let areaSqft : Option Rat :=
    if numFalsy room.areaSqft && room.dimensions.isSome then
      some ((jsRound ((room.dimensions.getD ⟨0, 0⟩).length * (room.dimensions.getD ⟨0, 0⟩).width) : Int) : Rat)
    else room.areaSqft
  let dimensions : Option Dimensions :=
    if room.dimensions.isNone && !numFalsy areaSqft then
      some ⟨(jsRoundSqrt (areaSqft.getD 0) : Rat), (jsRoundSqrt (areaSqft.getD 0) : Rat)⟩
    else room.dimensions
  let position := some (room.position.getD ⟨0, 0⟩)
  ⟨id, name, rtype, areaSqft, dimensions, position, room.doors.getD [], room.windows.getD []⟩

/-- The room loop of `parseAndValidateResponse` for one floor. -/
def normalizeRooms (floorIndex : Nat) : Nat → List RawRoom → List NRoom
  | _, [] => []
  | roomIndex, room :: rest =>
    normalizeRoom floorIndex roomIndex room :: normalizeRooms floorIndex (roomIndex + 1) rest

/-- The per-floor pass of `parseAndValidateResponse` (source lines 185-249):
level fill, missing/empty rooms checks (which throw), room normalization and
the floor-total fill. -/
def normalizeFloor (floorIndex : Nat) (floor : RawFloor) : Except String NFloor :=
  let level := if strFalsy floor.level then
      (if floorIndex = 0 then "Ground" else "Floor " ++ Nat.repr floorIndex)
    else floor.level.getD ""
  match floor.rooms with
  | none => .error ("Floor " ++ level ++ " is missing rooms array")
  | some rooms =>
    if rooms.isEmpty then .error ("Floor " ++ level ++ " must have at least one room")
    else
      let nrooms := normalizeRooms floorIndex 0 rooms
      let totalArea := if numFalsy floor.totalArea then
          some (nrooms.foldl (fun sum room => sum + room.areaSqft.getD 0) 0)
        else floor.totalArea
      .ok ⟨level, totalArea, nrooms⟩

/-- The floor loop of `parseAndValidateResponse`. -/
def normalizeFloors : Nat → List RawFloor → Except String (List NFloor)
  | _, [] => .ok []
  | floorIndex, floor :: rest => do
    let f ← normalizeFloor floorIndex floor
    let fs ← normalizeFloors (floorIndex + 1) rest
    .ok (f :: fs)

/-- `PlannerService.parseAndValidateResponse`.  The argument is the decoded
JSON body: `none` models content `JSON.parse` rejects.  Every internal throw is
re-thrown as an `AppError` whose message carries the
`Failed to parse AI response:` prefix (the catch block at source lines
275-282). -/
def parseAndValidateResponse (mraw : Option RawPlan) (meta : PlanMeta) : Except String NPlan :=
  match mraw with
  | none => .error "Failed to parse AI response: Unexpected token in JSON"
  | some raw =>
    let buildingType := jsOrStr raw.buildingType (jsOrStr meta.buildingType "Residential")
    match raw.floors with
    | none => .error "Failed to parse AI response: Missing or invalid floors array in response"
    | some floors =>
      if floors.isEmpty then .error "Failed to parse AI response: Plan must have at least one floor"
      else
        match normalizeFloors 0 floors with
        | .error e => .error ("Failed to parse AI response: " ++ e)
        | .ok nfloors =>
          let buildingDimensions := if raw.buildingDimensions.isNone then
              some (calculateBuildingDimensions (match nfloors with | f :: _ => f.rooms | [] => []))
            else raw.buildingDimensions
          let totalArea := if numFalsy raw.totalArea then
              some (nfloors.foldl (fun sum floor => sum + floor.totalArea.getD 0) 0)
            else raw.totalArea
          let exterior := if raw.exterior.isNone then some ⟨"south", 0, "modern"⟩ else raw.exterior
          .ok ⟨buildingType, totalArea, buildingDimensions, nfloors, exterior,
               raw.designNotes.getD [], none⟩

end Planner

namespace Planner

/-- `AI_CONFIG.maxRetries`. -/
def maxRetries : Nat := 3

/-- `this.cacheMaxAge`: five minutes in milliseconds. -/
def cacheMaxAge : Nat := 5 * 60 * 1000

/-- Token usage as reported by the completion provider. -/
structure Usage where
  promptTokens : Nat
  completionTokens : Nat
  totalTokens : Nat
deriving DecidableEq, Repr

/-- The `{plan, usage}` value `generatePlan` returns and caches. -/
structure GenResult where
  plan : NPlan
  usage : Usage
deriving DecidableEq, Repr

/-- An entry of the planner response cache: `{data, timestamp}`. -/
structure PCacheEntry where
  data : GenResult
  timestamp : Nat
deriving DecidableEq, Repr

/-- The planner response cache, a JS `Map` in insertion order. -/
abbrev PCache : Type := List (String × PCacheEntry)

/-- `Map.prototype.get` on an association list. -/
def mapGet {V : Type} : List (String × V) → String → Option V
  | [], _ => none
  | p :: t, k => if p.1 = k then some p.2 else mapGet t k

/-- `Map.prototype.set` on an association list: replace the first entry with
the key in place, else append. -/
def mapSet {V : Type} : List (String × V) → String → V → List (String × V)
  | [], k, v => [(k, v)]
  | p :: t, k, v => if p.1 = k then (k, v) :: t else p :: mapSet t k v

/-- The JSON serialization of the request `meta` (only `buildingType` is
modelled, see `PlanMeta`). -/
def metaStringify (meta : PlanMeta) : String :=
  match meta.buildingType with
  | none => "\x7b\x7d"
  | some bt => "\x7b\"buildingType\":\"" ++ bt ++ "\"\x7d"

/-- `PlannerService.getCacheKey`: the template literal `prompt-JSON.stringify(meta)`. -/
def getCacheKey (prompt : String) (meta : PlanMeta) : String :=
  prompt ++ "-" ++ metaStringify meta

/-- `PlannerService.getFromCache`: return the cached data only while younger
than `cacheMaxAge`; `now` models `Date.now()`. -/
def getFromCache (cache : PCache) (key : String) (now : Nat) : Option GenResult :=
  match mapGet cache key with
  | some cached => if now - cached.timestamp < cacheMaxAge then some cached.data else none
  | none => none

/-- `PlannerService.setCache`: insert with the current timestamp, then, if the
map now holds more than 100 entries, delete every entry strictly older than
`cacheMaxAge`. -/
def setCache (cache : PCache) (key : String) (data : GenResult) (now : Nat) : PCache :=
  let inserted := mapSet cache key ⟨data, now⟩
  if 100 < inserted.length then
    inserted.filter (fun p => !decide (cacheMaxAge < now - p.2.timestamp))
  else inserted

/-- Error codes of provider-thrown errors that `generatePlan` inspects.
`noCode` stands for any thrown value without a relevant `code` (including the
internal `AppError`s for empty responses and parse failures, whose status is
500 and hence retryable). -/
inductive ErrCode where
  | insufficientQuota
  | contextLengthExceeded
  | rateLimitExceeded
  | noCode
deriving DecidableEq, Repr

/-- One provider interaction, the oracle for one loop iteration of
`generatePlan`:
* `throwErr code` — the `openai.chat.completions.create` call rejects;
* `response content usage` — the call resolves; `content = none` models a
  missing or empty message body (falsy in JS), `content = some mraw` a
  non-empty body whose JSON decoding is `mraw` (`none` inside when
  `JSON.parse` would throw). -/
inductive AttemptInput where
  | throwErr (code : ErrCode)
  | response (content : Option (Option RawPlan)) (usage : Usage)

/-- The `AppError(message, statusCode)` values `generatePlan` can throw to its
caller. -/
structure AppError where
  message : String
  statusCode : Nat
deriving DecidableEq, Repr

/-- The error thrown after the loop when every retry is exhausted (source
lines 157-161). -/
def finalError (lastErr : Option ErrCode) : AppError :=
  if lastErr = some ErrCode.rateLimitExceeded then
    ⟨"Too many requests. Please wait and try again.", 429⟩
  else
    ⟨"Failed to generate architectural plan after multiple attempts. Please try again.", 500⟩

/-- The retry loop of `PlannerService.generatePlan` (source lines 54-149).
`outcomes attempt` is the provider's behaviour on the attempt with that
1-based number; the returned `Nat` counts provider invocations; the returned
cache reflects the `setCache` call on the success path.  Structural recursion
is on `fuel`, which the wrapper starts at `maxRetries` so that the loop runs
for `attempt = 1..maxRetries`. -/
def genLoop (meta : PlanMeta) (key : String) (cache : PCache) (now : Nat)
    (outcomes : Nat → AttemptInput) :
    Nat → Nat → Option ErrCode → Except AppError GenResult × Nat × PCache
  | _, 0, lastErr => (.error (finalError lastErr), 0, cache)
  | attempt, fuel + 1, lastErr =>
    match outcomes attempt with
    | .throwErr code =>
      if code = ErrCode.insufficientQuota then
        (.error ⟨"AI service quota exceeded. Please try again later.", 503⟩, 1, cache)
      else if code = ErrCode.contextLengthExceeded then
        (.error ⟨"Request too large. Please simplify your requirements.", 400⟩, 1, cache)
      else
        let r := genLoop meta key cache now outcomes (attempt + 1) fuel (some code)
        (r.1, r.2.1 + 1, r.2.2)
    | .response content usage =>
      match content with
      | none =>
        let r := genLoop meta key cache now outcomes (attempt + 1) fuel (some ErrCode.noCode)
        (r.1, r.2.1 + 1, r.2.2)
      | some mraw =>
        match parseAndValidateResponse mraw meta with
        | .error _ =>
          let r := genLoop meta key cache now outcomes (attempt + 1) fuel (some ErrCode.noCode)
          (r.1, r.2.1 + 1, r.2.2)
        | .ok plan =>
          match validatePlanGeometry plan with
          | .error _ =>
            let r := genLoop meta key cache now outcomes (attempt + 1) fuel (some ErrCode.noCode)
            (r.1, r.2.1 + 1, r.2.2)
          | .ok validationResult =>
            if validationResult.valid then
              let result : GenResult := ⟨plan, usage⟩
              (.ok result, 1, setCache cache key result now)
            else if attempt < maxRetries then
              let r := genLoop meta key cache now outcomes (attempt + 1) fuel lastErr
              (r.1, r.2.1 + 1, r.2.2)
            else
              let result : GenResult := ⟨{ plan with validationWarnings := some validationResult.errors }, usage⟩
              (.ok result, 1, setCache cache key result now)

/-- `PlannerService.generatePlan`: cache lookup, then the bounded retry loop.
Returns the outcome, the number of provider invocations, and the cache left
behind. -/
def generatePlan (cache : PCache) (now : Nat) (prompt : String) (meta : PlanMeta)
    (outcomes : Nat → AttemptInput) : Except AppError GenResult × Nat × PCache :=
  let cacheKey := getCacheKey prompt meta
  match getFromCache cache cacheKey now with
  | some cachedResponse => (.ok cachedResponse, 0, cache)
  | none => genLoop meta cacheKey cache now outcomes 1 maxRetries none

end Planner

namespace Dxf

open Planner

/-- The ambient world a JS function could consult (`Date.now()`,
`Math.random()`).  The DXF generator is passed one to state determinism as a
two-run property; its body never reads it. -/
structure World where
  nowMs : Nat
  randSeed : Nat
deriving DecidableEq, Repr

/-- ASCII uppercasing of one character (JS `toUpperCase` on the ASCII names
this system manipulates). -/
def upperChar (c : Char) : Char :=
  if 'a' ≤ c ∧ c ≤ 'z' then Char.ofNat (c.toNat - 32) else c

/-- JS `String.prototype.toUpperCase` restricted to ASCII. -/
def jsToUpper (s : String) : String := String.mk (s.data.map upperChar)

/-- JS `s || d` for a non-optional string field. -/
def jsOrStrS (s d : String) : String := if s.data.isEmpty then d else s

/-- JS `Number.prototype.toFixed(4)`: fixed four-decimal rendering, rounding
half away from zero on the magnitude. -/
def toFixed4 (q : Rat) : String :=
  let neg := decide (q < 0)
  let n := (⌊|q| * 10000 + 1 / 2⌋).toNat
  let ip := n / 10000
  let fp := n % 10000
  let fpStr := Nat.repr fp
  (if neg then "-" else "") ++ Nat.repr ip ++ "."
    ++ String.mk (List.replicate (4 - fpStr.length) '0') ++ fpStr

/-- `DXF_LAYERS.WALLS`. -/
def layerWALLS : String := "A-WALL"

/-- `DXF_LAYERS.WALLS_INTERIOR`. -/
def layerWALLS_INTERIOR : String := "A-WALL-INTR"

/-- `DXF_LAYERS.DOORS`. -/
def layerDOORS : String := "A-DOOR"

/-- `DXF_LAYERS.WINDOWS`. -/
def layerWINDOWS : String := "A-GLAZ"

/-- `DXF_LAYERS.ROOMS`. -/
def layerROOMS : String := "A-AREA"

/-- `DXF_LAYERS.LABELS`. -/
def layerLABELS : String := "A-ANNO-TEXT"

/-- `DXF_LAYERS.DIMENSIONS`. -/
def layerDIMENSIONS : String := "A-ANNO-DIMS"

/-- `DXF_LAYERS.FURNITURE`. -/
def layerFURNITURE : String := "A-FURN"

/-- `DXF_LAYERS.GRID`. -/
def layerGRID : String := "A-GRID"

/-- `DXF_LAYERS.TITLE`. -/
def layerTITLE : String := "A-ANNO-TITL"

/-- `generateHeader`: the DXF HEADER section with extents scaled from the
building dimensions (defaults 50 x 40 when absent). -/
def generateHeader (planData : NPlan) (scale : Rat) : String :=
  let buildingWidth := jsOrNum (planData.buildingDimensions.map (·.width)) 50 * scale
  let buildingDepth := jsOrNum (planData.buildingDimensions.map (·.depth)) 40 * scale
  "0\nSECTION\n2\nHEADER\n9\n$ACADVER\n1\nAC1021\n9\n$DWGCODEPAGE\n3\nANSI_1252\n9\n"
    ++ "$INSBASE\n10\n0.0\n20\n0.0\n30\n0.0\n9\n$EXTMIN\n10\n0.0\n20\n0.0\n30\n0.0\n9\n$EXTMAX\n10\n"
    ++ toFixed4 buildingWidth ++ "\n20\n" ++ toFixed4 buildingDepth
    ++ "\n30\n0.0\n9\n$LIMMIN\n10\n0.0\n20\n0.0\n9\n$LIMMAX\n10\n"
    ++ toFixed4 buildingWidth ++ "\n20\n" ++ toFixed4 buildingDepth
    ++ "\n9\n$INSUNITS\n70\n1\n9\n$LUNITS\n70\n2\n9\n$LUPREC\n70\n4\n9\n$MEASUREMENT\n70\n0\n0\nENDSEC\n"

/-- The `layerConfigs` table of `generateTables`: layer name, AutoCAD color
index, line weight. -/
def layerConfigs : List (String × Nat × Nat) :=
  [(layerWALLS, 7, 50), (layerWALLS_INTERIOR, 7, 25), (layerDOORS, 3, 18),
   (layerWINDOWS, 4, 18), (layerROOMS, 8, 13), (layerLABELS, 7, 13),
   (layerDIMENSIONS, 1, 13), (layerFURNITURE, 6, 13), (layerGRID, 8, 9),
   (layerTITLE, 7, 35)]

/-- One LAYER record of `generateTables`. -/
def layerRecord (cfg : String × Nat × Nat) : String :=
  "0\nLAYER\n2\n" ++ cfg.1 ++ "\n70\n0\n62\n" ++ Nat.repr cfg.2.1
    ++ "\n6\nCONTINUOUS\n370\n" ++ Nat.repr cfg.2.2 ++ "\n"

/-- `generateTables`: line-type, layer and style tables.  The layer count `10`
is `Object.keys(DXF_LAYERS).length` in the source. -/
def generateTables : String :=
  "0\nSECTION\n2\nTABLES\n0\nTABLE\n2\nLTYPE\n70\n1\n0\nLTYPE\n2\nCONTINUOUS\n70\n0\n3\n"
    ++ "Solid line\n72\n65\n73\n0\n40\n0.0\n0\nENDTAB\n0\nTABLE\n2\nLAYER\n70\n10\n"
    ++ (layerConfigs.foldl (fun acc cfg => acc ++ layerRecord cfg) "")
    ++ "0\nENDTAB\n0\nTABLE\n2\nSTYLE\n70\n1\n0\nSTYLE\n2\nSTANDARD\n70\n0\n40\n0.0\n41\n"
    ++ "1.0\n50\n0.0\n71\n0\n42\n0.2\n3\ntxt\n4\n\n0\nENDTAB\n0\nENDSEC\n"

/-- `generateBlocks`: the (empty) BLOCKS section. -/
def generateBlocks : String :=
  "0\nSECTION\n2\nBLOCKS\n0\nENDSEC\n"

/-- `createPolyline`: an LWPOLYLINE entity. -/
def createPolyline (points : List (Rat × Rat)) (layer : String) (closed : Bool) : String :=
  "0\nLWPOLYLINE\n8\n" ++ layer ++ "\n90\n" ++ Nat.repr points.length ++ "\n70\n"
    ++ (if closed then "1" else "0") ++ "\n"
    ++ points.foldl (fun acc p => acc ++ "10\n" ++ toFixed4 p.1 ++ "\n20\n" ++ toFixed4 p.2 ++ "\n") ""

/-- `createLine`: a LINE entity. -/
def createLine (x1 y1 x2 y2 : Rat) (layer : String) : String :=
  "0\nLINE\n8\n" ++ layer ++ "\n10\n" ++ toFixed4 x1 ++ "\n20\n" ++ toFixed4 y1
    ++ "\n11\n" ++ toFixed4 x2 ++ "\n21\n" ++ toFixed4 y2 ++ "\n"

/-- `createArc`: an ARC entity. -/
def createArc (cx cy radius startAngle endAngle : Rat) (layer : String) : String :=
  "0\nARC\n8\n" ++ layer ++ "\n10\n" ++ toFixed4 cx ++ "\n20\n" ++ toFixed4 cy
    ++ "\n40\n" ++ toFixed4 radius ++ "\n50\n" ++ toFixed4 startAngle
    ++ "\n51\n" ++ toFixed4 endAngle ++ "\n"

/-- `createMText`: an MTEXT entity with an alignment-dependent attachment
point. -/
def createMText (text : String) (x y : Rat) (layer : String) (height : Rat)
    (align : String) : String :=
  let attachmentPoint : Nat := if align = "left" then 4 else if align = "right" then 6 else 5
  "0\nMTEXT\n8\n" ++ layer ++ "\n10\n" ++ toFixed4 x ++ "\n20\n" ++ toFixed4 y
    ++ "\n40\n" ++ toFixed4 height ++ "\n71\n" ++ Nat.repr attachmentPoint
    ++ "\n1\n" ++ text ++ "\n"

/-- `createDoor`: door opening, quarter-circle swing arc and leaf for each of
the four wall orientations; an unrecognized wall emits nothing. -/
def createDoor (roomX roomY roomW roomH : Rat) (door : Door) (scale : Rat) : String :=
  let doorWidth := jsOrNum door.width 3 * scale
  let doorPos := jsOrNum door.position 0 * scale
  match door.wall with
  | .north =>
    let dx := roomX + doorPos
    let dy := roomY
    createLine dx dy (dx + doorWidth) dy layerDOORS
      ++ createArc dx dy doorWidth 0 90 layerDOORS
      ++ createLine dx dy dx (dy + doorWidth) layerDOORS
  | .south =>
    let dx := roomX + doorPos
    let dy := roomY + roomH
    createLine dx dy (dx + doorWidth) dy layerDOORS
      ++ createArc dx dy doorWidth 270 360 layerDOORS
      ++ createLine dx dy dx (dy - doorWidth) layerDOORS
  | .west =>
    let dx := roomX
    let dy := roomY + doorPos
    createLine dx dy dx (dy + doorWidth) layerDOORS
      ++ createArc dx dy doorWidth 0 90 layerDOORS
      ++ createLine dx dy (dx + doorWidth) dy layerDOORS
  | .east =>
    let dx := roomX + roomW
    let dy := roomY + doorPos
    createLine dx dy dx (dy + doorWidth) layerDOORS
      ++ createArc dx dy doorWidth 90 180 layerDOORS
      ++ createLine dx dy (dx - doorWidth) dy layerDOORS
  | .otherWall => ""

/-- `createWindow`: the double-line window symbol with end caps and center
divider for each of the four wall orientations. -/
def createWindow (roomX roomY roomW roomH : Rat) (window : Window) (scale : Rat) : String :=
  let winWidth := jsOrNum window.width 4 * scale
  let winPos := jsOrNum window.position 0 * scale
  let offset := 0.15 * scale
  match window.wall with
  | .north =>
    let wx := roomX + winPos
    let wy := roomY
    createLine wx (wy - offset) (wx + winWidth) (wy - offset) layerWINDOWS
      ++ createLine wx (wy + offset) (wx + winWidth) (wy + offset) layerWINDOWS
      ++ createLine wx (wy - offset) wx (wy + offset) layerWINDOWS
      ++ createLine (wx + winWidth) (wy - offset) (wx + winWidth) (wy + offset) layerWINDOWS
      ++ createLine (wx + winWidth * 0.5) (wy - offset) (wx + winWidth * 0.5) (wy + offset) layerWINDOWS
  | .south =>
    let wx := roomX + winPos
    let wy := roomY + roomH
    createLine wx (wy - offset) (wx + winWidth) (wy - offset) layerWINDOWS
      ++ createLine wx (wy + offset) (wx + winWidth) (wy + offset) layerWINDOWS
      ++ createLine wx (wy - offset) wx (wy + offset) layerWINDOWS
      ++ createLine (wx + winWidth) (wy - offset) (wx + winWidth) (wy + offset) layerWINDOWS
      ++ createLine (wx + winWidth * 0.5) (wy - offset) (wx + winWidth * 0.5) (wy + offset) layerWINDOWS
  | .west =>
    let wx := roomX
    let wy := roomY + winPos
    createLine (wx - offset) wy (wx - offset) (wy + winWidth) layerWINDOWS
      ++ createLine (wx + offset) wy (wx + offset) (wy + winWidth) layerWINDOWS
      ++ createLine (wx - offset) wy (wx + offset) wy layerWINDOWS
      ++ createLine (wx - offset) (wy + winWidth) (wx + offset) (wy + winWidth) layerWINDOWS
      ++ createLine (wx - offset) (wy + winWidth * 0.5) (wx + offset) (wy + winWidth * 0.5) layerWINDOWS
  | .east =>
    let wx := roomX + roomW
    let wy := roomY + winPos
    createLine (wx - offset) wy (wx - offset) (wy + winWidth) layerWINDOWS
      ++ createLine (wx + offset) wy (wx + offset) (wy + winWidth) layerWINDOWS
      ++ createLine (wx - offset) wy (wx + offset) wy layerWINDOWS
      ++ createLine (wx - offset) (wy + winWidth) (wx + offset) (wy + winWidth) layerWINDOWS
      ++ createLine (wx - offset) (wy + winWidth * 0.5) (wx + offset) (wy + winWidth * 0.5) layerWINDOWS
  | .otherWall => ""

/-- JS `Math.sqrt(room.areaSqft)` where `areaSqft` may be missing; see
`ratSqrtApx`. -/
def sqrtOfArea (areaSqft : Option Rat) : Rat := ratSqrtApx (areaSqft.getD 0)

/-- The per-room entity block of `generateEntities`: interior-wall outline,
name label, dimension label, area label, doors, windows. -/
def roomEntities (room : NRoom) (scale : Rat) : String :=
  let x := jsOrNum (room.position.map (·.x)) 0 * scale
  let y := jsOrNum (room.position.map (·.y)) 0 * scale
  let w := jsOrNum (room.dimensions.map (·.width)) (sqrtOfArea room.areaSqft) * scale
  let h := jsOrNum (room.dimensions.map (·.length)) (sqrtOfArea room.areaSqft) * scale
  let dimW := jsOrNum (room.dimensions.map (·.width)) ((jsRound (w / scale) : Int) : Rat)
  let dimH := jsOrNum (room.dimensions.map (·.length)) ((jsRound (h / scale) : Int) : Rat)
  createPolyline [(x, y), (x + w, y), (x + w, y + h), (x, y + h), (x, y)] layerWALLS_INTERIOR true
    ++ createMText (jsToUpper room.name) (x + w / 2) (y + h / 2 + 1) layerLABELS (0.8 * scale) "center"
    ++ createMText (jsNumToString dimW ++ "\x27 x " ++ jsNumToString dimH ++ "\x27")
        (x + w / 2) (y + h / 2 - 0.5) layerLABELS (0.5 * scale) "center"
    ++ createMText ((match room.areaSqft with | some a => jsNumToString a | none => "undefined") ++ " SF")
        (x + w / 2) (y + h / 2 - 1.5) layerLABELS (0.4 * scale) "center"
    ++ room.doors.foldl (fun acc door => acc ++ createDoor x y w h door scale) ""
    ++ room.windows.foldl (fun acc window => acc ++ createWindow x y w h window scale) ""

/-- `generateEntities`: building outline, per-room geometry and the title
block. -/
def generateEntities (planData : NPlan) (floorData : NFloor) (scale : Rat) : String :=
  let outline := match planData.buildingDimensions with
    | some bd =>
      let bw := bd.width * scale
      let bdp := bd.depth * scale
      createPolyline [(0, 0), (bw, 0), (bw, bdp), (0, bdp), (0, 0)] layerWALLS true
    | none => ""
  let bw := jsOrNum (planData.buildingDimensions.map (·.width)) 50 * scale
  "0\nSECTION\n2\nENTITIES\n"
    ++ outline
    ++ floorData.rooms.foldl (fun acc room => acc ++ roomEntities room scale) ""
    ++ createMText (jsToUpper (jsOrStrS planData.buildingType "FLOOR PLAN")) (bw - 2) (-3)
        layerTITLE (1.2 * scale) "right"
    ++ createMText (floorData.level ++ " - " ++ jsNumToString (jsOrNum floorData.totalArea 0) ++ " SF")
        (bw - 2) (-5) layerLABELS (0.6 * scale) "right"
    ++ "0\nENDSEC\n"

/-- `generateDXF`: the complete DXF document for one floor; throws
(`.error`) when the floor index is out of range.  The `World` argument is the
ambient clock/randomness a JS function could read; the generator's body never
consults it, which is what the determinism claim is about. -/
def generateDXF (world : World) (planData : NPlan) (floorIndex : Nat) (scale : Rat) :
    Except String String :=
  match planData.floors.get? floorIndex with
  | none => .error ("Floor index " ++ Nat.repr floorIndex ++ " not found")
  | some floorData =>
    .ok (generateHeader planData scale ++ generateTables ++ generateBlocks
      ++ generateEntities planData floorData scale ++ "0\nEOF\n")

end Dxf

namespace Dwg

/-- The environment the conversion chain probes: whether a CloudConvert key is
configured, and what each external conversion attempt would produce.
`cloudOutcome` abstracts the whole job-submit/poll/download pipeline of
`convertWithCloudConvert`; `dwgwriteOutcome`/`odaOutcome` are `some buffer`
when the external tool run produces an output file and `none` when the tool is
absent or its run fails. -/
structure ConvEnv where
  cloudConvertApiKey : Option String
  cloudOutcome : Except String String
  dwgwriteOutcome : Option String
  odaOutcome : Option String

/-- `convertWithCloudConvert`: throws when no API key is configured, otherwise
behaves as the remote pipeline does. -/
def convertWithCloudConvert (env : ConvEnv) (dxfContent : String) : Except String String :=
  match env.cloudConvertApiKey with
  | none => .error "CloudConvert API key not configured"
  | some _ => env.cloudOutcome

/-- `convertWithLibreDWG`: writes a temp file, runs `dwgwrite` and reads the
output back; its `catch` block swallows every failure and returns
`Buffer.from(dxfContent)` instead, so the function never throws. -/
def convertWithLibreDWG (env : ConvEnv) (dxfContent : String) : Except String String :=
  match env.dwgwriteOutcome with
  | some dwgBuffer => .ok dwgBuffer
  | none => .ok dxfContent

/-- `convertWithODA`: runs the ODA file converter on temp directories;
failures propagate (re-thrown in the catch block). -/
def convertWithODA (env : ConvEnv) (dxfContent : String) : Except String String :=
  match env.odaOutcome with
  | some dwgBuffer => .ok dwgBuffer
  | none => .error "ODA converter error"

/-- What `convertDXFtoDWG` resolves to: either a plain binary buffer from a
successful method, or the tagged `{buffer, format, message}` fallback object
built when every method threw. -/
inductive DwgResult where
  | buffer (content : String)
  | fallback (buffer : String) (format : String) (message : String)
deriving DecidableEq, Repr

/-- The three conversion methods, in the `tryOrder` of `convertDXFtoDWG`. -/
inductive ConvMethod where
  | cloudconvert
  | libredwg
  | oda
deriving DecidableEq, Repr

/-- Dispatch table `methods` of `convertDXFtoDWG`. -/
def runMethod (m : ConvMethod) (env : ConvEnv) (dxfContent : String) : Except String String :=
  match m with
  | .cloudconvert => convertWithCloudConvert env dxfContent
  | .libredwg => convertWithLibreDWG env dxfContent
  | .oda => convertWithODA env dxfContent

/-- The auto-mode loop of `convertDXFtoDWG`: skip CloudConvert when no key is
configured, try each remaining method inside a try/catch, return the first
success, and fall back to the tagged DXF object when every method threw. -/
def tryMethods (env : ConvEnv) (dxfContent : String) : List ConvMethod → DwgResult
  | [] => .fallback dxfContent "dxf"
      "DWG conversion unavailable, returning DXF format (compatible with AutoCAD)"
  | m :: rest =>
    if m = ConvMethod.cloudconvert ∧ env.cloudConvertApiKey = none then
      tryMethods env dxfContent rest
    else
      match runMethod m env dxfContent with
      | .ok buf => .buffer buf
      | .error _ => tryMethods env dxfContent rest

/-- `convertDXFtoDWG`: with an explicit `method` option the chosen method is
called directly (its throw propagates); in auto mode (`method = none`) the
`tryOrder` loop runs. -/
def convertDXFtoDWG (env : ConvEnv) (method : Option ConvMethod) (dxfContent : String) :
    Except String DwgResult :=
  match method with
  | some m => (runMethod m env dxfContent).map DwgResult.buffer
  | none => .ok (tryMethods env dxfContent [.cloudconvert, .libredwg, .oda])

end Dwg

namespace Cad

open Planner Dwg

/-- `MAX_CACHE_SIZE` of the CAD service. -/
def MAX_CACHE_SIZE : Nat := 50

/-- `CACHE_TTL` of the CAD service: five minutes in milliseconds. -/
def CACHE_TTL : Nat := 5 * 60 * 1000

/-- An entry of the CAD cache: `{data, timestamp}`.  The cache is generic in
the payload (the JS map stores arbitrary result objects). -/
structure CadCacheEntry (α : Type) where
  data : α
  timestamp : Nat
deriving DecidableEq, Repr

/-- The CAD result cache, a JS `Map` in insertion order. -/
abbrev CadCache (α : Type) : Type := List (String × CadCacheEntry α)

/-- `Map.prototype.delete` on an association list (keys are unique in a JS
`Map`, so deleting the first occurrence is exact). -/
def mapDelete {V : Type} : List (String × V) → String → List (String × V)
  | [], _ => []
  | p :: t, k => if p.1 = k then t else p :: mapDelete t k

/-- `cache.has`-style key membership. -/
def hasKey {V : Type} (c : List (String × V)) (k : String) : Bool :=
  c.any (fun p => p.1 = k)

/-- `cacheResult` of the CAD service: when the map already holds
`MAX_CACHE_SIZE` or more entries, delete the first (oldest-inserted) key
(`cache.keys().next().value`), then insert the new entry with the current
timestamp. -/
def cacheResult {α : Type} (cache : CadCache α) (key : String) (data : α) (now : Nat) :
    CadCache α :=
  let cache1 := if MAX_CACHE_SIZE ≤ cache.length then
      match cache.head? with
      | some oldest => mapDelete cache oldest.1
      | none => cache
    else cache
  Planner.mapSet cache1 key ⟨data, now⟩

end Cad

namespace Cad

open Planner Dwg Dxf

/-- The fields of the plan object that `generateCADFiles` reads.  `floors` is
optional because the metadata initializer dereferences
`planData.floors[floorIndex]` before the protecting try block, so a plan
without a `floors` array makes the whole function throw. -/
structure CadPlanInput where
  buildingType : String
  buildingDimensions : Option BuildingDims
  totalArea : Option Rat
  floors : Option (List NFloor)
deriving DecidableEq, Repr

/-- Rebuilds the `NPlan` view of a `CadPlanInput` once its floors are known
to be present, for the call into `generateDXF`. -/
def toNPlan (planData : CadPlanInput) (fls : List NFloor) : NPlan :=
  ⟨planData.buildingType, planData.totalArea, planData.buildingDimensions, fls, none, [], none⟩

/-- The `options` argument of `generateCADFiles` after destructuring. -/
structure CadOptions where
  dxf : Bool
  dwg : Bool
  floorIndex : Nat
  scale : Rat
deriving DecidableEq, Repr

/-- One generated file entry (`result.files.dxf` / `result.files.dwg`). -/
structure CadFile where
  content : String
  filename : String
  mimeType : String
  size : Nat
  note : Option String
deriving DecidableEq, Repr

/-- The `result.files` object. -/
structure CadFiles where
  dxf : Option CadFile
  dwg : Option CadFile
deriving DecidableEq, Repr

/-- The `result.metadata` object; `generatedAt` models the
`new Date().toISOString()` timestamp as milliseconds. -/
structure CadMetadata where
  buildingType : String
  floorLevel : String
  totalArea : Rat
  roomCount : Nat
  generatedAt : Nat
  scale : Rat
  generationTimeMs : Option Nat
deriving DecidableEq, Repr

/-- What the `generateCADFiles` promise resolves to: the `success: true`
object or the structured `success: false` object built in the catch block. -/
inductive CadOutcome where
  | success (files : CadFiles) (metadata : CadMetadata) (warnings : List String)
  | failure (error : String) (metadata : CadMetadata)
deriving DecidableEq, Repr

/-- One step of the JS string hash in `generateCacheKey`
(`hash = ((hash << 5) - hash) + char; hash = hash & hash`), on 32-bit signed
integers. -/
def toInt32 (n : Int) : Int :=
  let m := n % 4294967296
  if m < 2147483648 then m else m - 4294967296

/-- `generateCacheKey`'s string hash, folded over the serialized fingerprint. -/
def jsHash (s : String) : Int :=
  s.data.foldl (fun hash c => toInt32 (toInt32 (hash * 32) - hash + (c.toNat : Int))) 0

/-- Serialization of a rational for the cache-key fingerprint. -/
def serRat (q : Rat) : String := q.num.repr ++ "/" ++ q.den.repr

/-- Serialization of an optional value for the cache-key fingerprint. -/
def serOpt {α : Type} (f : α → String) : Option α → String
  | none => "u"
  | some a => "s" ++ f a

/-- Serialization of a wall tag for the cache-key fingerprint. -/
def serWall : Wall → String
  | .north => "n"
  | .south => "s"
  | .east => "e"
  | .west => "w"
  | .otherWall => "o"

/-- Serialization of a door for the cache-key fingerprint. -/
def serDoor (d : Door) : String :=
  serWall d.wall ++ "," ++ serOpt serRat d.position ++ "," ++ serOpt serRat d.width

/-- Serialization of a window for the cache-key fingerprint. -/
def serWindow (w : Window) : String :=
  serWall w.wall ++ "," ++ serOpt serRat w.position ++ "," ++ serOpt serRat w.width

/-- Serialization of a room for the cache-key fingerprint. -/
def serRoom (r : NRoom) : String :=
  r.id ++ "|" ++ r.name ++ "|" ++ r.type ++ "|" ++ serOpt serRat r.areaSqft ++ "|"
    ++ serOpt (fun d => serRat d.length ++ "," ++ serRat d.width) r.dimensions ++ "|"
    ++ serOpt (fun p => serRat p.x ++ "," ++ serRat p.y) r.position ++ "|"
    ++ (r.doors.foldl (fun acc d => acc ++ serDoor d ++ ";") "") ++ "|"
    ++ (r.windows.foldl (fun acc w => acc ++ serWindow w ++ ";") "")

/-- Serialization of a floor for the cache-key fingerprint. -/
def serFloor (f : NFloor) : String :=
  f.level ++ "$" ++ serOpt serRat f.totalArea ++ "$"
    ++ (f.rooms.foldl (fun acc r => acc ++ serRoom r ++ "&") "")

/-- The serialized reduced fingerprint `generateCacheKey` hashes: building
type, building dimensions, the selected floor and the scale.  It stands for
the `JSON.stringify` call of the source; the exact characters differ from
JSON, but the determinism and the selection of fields are the same, and no
claim depends on the concrete text. -/
def fingerprint (planData : CadPlanInput) (fls : List NFloor) (floorIndex : Nat)
    (scale : Rat) : String :=
  planData.buildingType ++ "#"
    ++ serOpt (fun b => serRat b.width ++ "," ++ serRat b.depth) planData.buildingDimensions ++ "#"
    ++ serOpt serFloor (fls.get? floorIndex) ++ "#" ++ serRat scale

/-- `generateCacheKey` of the CAD service. -/
def generateCacheKey (planData : CadPlanInput) (fls : List NFloor) (floorIndex : Nat)
    (scale : Rat) : String :=
  "cad_" ++ (jsHash (fingerprint planData fls floorIndex scale)).repr
    ++ "_" ++ Nat.repr floorIndex ++ "_" ++ jsNumToString scale

/-- Collapses runs of dashes, the dash-collapsing regex replacement in
`generateFilename`. -/
def collapseDashes : List Char → List Char
  | [] => []
  | [c] => [c]
  | c1 :: c2 :: rest =>
    if c1 = '-' && c2 = '-' then collapseDashes (c2 :: rest)
    else c1 :: collapseDashes (c2 :: rest)

/-- Lowercase a character and replace anything outside `[a-z0-9]` with a dash
(the `/[^a-z0-9]/g` replacement in `generateFilename`). -/
def slugChar (c : Char) : Char :=
  let lc := lowerChar c
  if ('a' ≤ lc ∧ lc ≤ 'z') ∨ ('0' ≤ lc ∧ lc ≤ '9') then lc else '-'

/-- The lowercase/replace/collapse pipeline of `generateFilename`. -/
def toSlug (s : String) : String := String.mk (collapseDashes (s.data.map slugChar))

/-- `generateFilename` of the CAD service; `now` models the `Date.now()`
timestamp embedded in the name. -/
def generateFilename (planData : CadPlanInput) (fls : List NFloor) (floorIndex : Nat)
    (now : Nat) (extension : String) : String :=
  toSlug (jsOrStrS planData.buildingType "floor-plan") ++ "-"
    ++ toSlug (jsOrStr ((fls.get? floorIndex).map (·.level)) "floor") ++ "-"
    ++ Nat.repr now ++ "." ++ extension

/-- The try-block body of `generateCADFiles` (cache lookup, floor check, DXF
generation, optional DWG conversion, cache write).  Every throw inside it is
caught by the surrounding catch and turned into a `CadOutcome.failure`, so the
body is total; it returns the outcome and the cache left behind. -/
def runCadBody (env : ConvEnv) (cache : CadCache CadOutcome) (now : Nat)
    (planData : CadPlanInput) (fls : List NFloor) (opts : CadOptions)
    (metadata : CadMetadata) (startTime : Nat) : CadOutcome × CadCache CadOutcome :=
  let cacheKey := generateCacheKey planData fls opts.floorIndex opts.scale
  let hit := match mapGet cache cacheKey with
    | some cached => if now - cached.timestamp < CACHE_TTL then some cached.data else none
    | none => none
  match hit with
  | some data => (data, cache)
  | none =>
    match (fls.get? opts.floorIndex : Option NFloor) with
    | none =>
      ((.failure ("Floor index " ++ Nat.repr opts.floorIndex ++ " not found in plan data") metadata),
        cache)
    | some _ =>
      match Dxf.generateDXF ⟨now, 0⟩ (toNPlan planData fls) opts.floorIndex opts.scale with
      | .error msg => ((.failure msg metadata), cache)
      | .ok dxfContent =>
        let files0 : CadFiles := ⟨none, none⟩
        let files1 := if opts.dxf then
            { files0 with dxf := some ⟨dxfContent,
                generateFilename planData fls opts.floorIndex now "dxf",
                "application/dxf", dxfContent.utf8ByteSize, none⟩ }
          else files0
        let step2 : CadFiles × List String := if opts.dwg then
            match convertDXFtoDWG env none dxfContent with
            | .ok (DwgResult.fallback buf format message) =>
              if format = "dxf" then
                ({ files1 with dwg := some ⟨buf,
                    generateFilename planData fls opts.floorIndex now "dxf",
                    "application/dxf", buf.utf8ByteSize,
                    some "DWG conversion unavailable - DXF provided instead"⟩ },
                 [message])
              else
                ({ files1 with dwg := some ⟨buf,
                    generateFilename planData fls opts.floorIndex now "dwg",
                    "application/acad", buf.utf8ByteSize, none⟩ },
                 [])
            | .ok (DwgResult.buffer dwgBuffer) =>
              ({ files1 with dwg := some ⟨dwgBuffer,
                  generateFilename planData fls opts.floorIndex now "dwg",
                  "application/acad", dwgBuffer.utf8ByteSize, none⟩ },
               [])
            | .error dwgError =>
              ({ files1 with dwg := some ⟨dxfContent,
                  generateFilename planData fls opts.floorIndex now "dxf",
                  "application/dxf", dxfContent.utf8ByteSize,
                  some "DWG conversion failed - DXF provided instead (compatible with AutoCAD)"⟩ },
               ["DWG conversion failed: " ++ dwgError ++ ". DXF file is still available."])
          else (files1, [])
        let result := CadOutcome.success step2.1
          { metadata with generationTimeMs := some (now - startTime) } step2.2
        (result, cacheResult cache cacheKey result now)

/-- `generateCADFiles` of the CAD service.  The metadata object is built
before the try block, dereferencing `planData.floors[floorIndex]`: with no
`floors` array present the function throws a `TypeError` to its caller
(`.error`); otherwise everything is inside try/catch and the promise resolves
(`.ok`) to either outcome shape.  `now` models `Date.now()` (the request is
modelled at one instant, so `generationTimeMs` is 0). -/
def generateCADFiles (env : ConvEnv) (cache : CadCache CadOutcome) (now : Nat)
    (planData : CadPlanInput) (opts : CadOptions) :
    Except String (CadOutcome × CadCache CadOutcome) :=
  match planData.floors with
  | none => .error "TypeError: Cannot read properties of undefined (reading floorIndex)"
  | some fls =>
    let startTime := now
    let metadata : CadMetadata :=
      ⟨planData.buildingType,
       jsOrStr ((fls.get? opts.floorIndex).map (·.level)) "Ground Floor",
       jsOrNum ((fls.get? opts.floorIndex).bind (·.totalArea)) 0,
       (match fls.get? opts.floorIndex with
        | some f => f.rooms.length
        | none => 0),
       now, opts.scale, none⟩
    .ok (runCadBody env cache now planData fls opts metadata startTime)

end Cad

namespace Planner

/-- Claim C1: `roomsOverlap` returns `false` exactly when one of the four
0.5 ft separation conditions holds (`right₁ ≤ left₂ + 0.5`,
`left₁ ≥ right₂ - 0.5`, `bottom₁ ≤ top₂ + 0.5`, `top₁ ≥ bottom₂ - 0.5`, with
`left = position.x`, `right = position.x + dimensions.width`,
`top = position.y`, `bottom = position.y + dimensions.length`), and `true`
exactly when all four are violated. -/
theorem roomsOverlap_separation (r1 r2 : RoomGeom) :
    (roomsOverlap r1 r2 = false ↔
      (r1.position.x + r1.dimensions.width ≤ r2.position.x + 0.5 ∨
       r1.position.x ≥ r2.position.x + r2.dimensions.width - 0.5 ∨
       r1.position.y + r1.dimensions.length ≤ r2.position.y + 0.5 ∨
       r1.position.y ≥ r2.position.y + r2.dimensions.length - 0.5))
  ∧ (roomsOverlap r1 r2 = true ↔
      ¬(r1.position.x + r1.dimensions.width ≤ r2.position.x + 0.5 ∨
        r1.position.x ≥ r2.position.x + r2.dimensions.width - 0.5 ∨
        r1.position.y + r1.dimensions.length ≤ r2.position.y + 0.5 ∨
        r1.position.y ≥ r2.position.y + r2.dimensions.length - 0.5)) := by
  constructor
  · simp only [roomsOverlap, Bool.not_eq_false', Bool.or_eq_true, decide_eq_true_eq, ge_iff_le]
    tauto
  · simp only [roomsOverlap, Bool.not_eq_true', Bool.eq_false_iff, ne_eq, Bool.or_eq_true,
      decide_eq_true_eq, ge_iff_le]
    tauto

/-- The plan of the spec scenario for the bounds check: a 40 x 30 building
holding the single room at x = 35 with a 10 x 10 footprint. -/
def scen3Plan : NPlan :=
  ⟨"Residential", some 100, some ⟨40, 30⟩,
   [⟨"Ground", some 100,
     [⟨"room-0-0", "Test Room", "room", some 100, some ⟨10, 10⟩, some ⟨35, 0⟩, [], []⟩]⟩],
   none, [], none⟩

/-- Claim C3: the bounds check flags a room exactly when
`x + width > buildingWidth + 1`, `y + length > buildingDepth + 1`, `x < 0` or
`y < 0`; and the spec scenario (room `{x:35, y:0, width:10, length:10}` on a
40 x 30 building) is flagged with precisely the building-width violation. -/
theorem roomBoundsErrors_spec :
    (∀ (name : String) (position : Position) (dimensions : Dimensions) (bw bd : Rat),
      (roomBoundsErrors name position dimensions bw bd ≠ [] ↔
        (position.x + dimensions.width > bw + 1 ∨ position.y + dimensions.length > bd + 1 ∨
         position.x < 0 ∨ position.y < 0)))
  ∧ validatePlanGeometry scen3Plan =
      .ok ⟨false, ["Room \"Test Room\" exceeds building width (35 + 10 > 40)"]⟩ := by
  constructor
  · intro name position dimensions bw bd
    unfold roomBoundsErrors
    split_ifs with h1 h2 h3 <;> simp_all
  · decide

end Planner

namespace Dxf

/-- Claim C7: the DXF encoder is deterministic — two runs on the same
`(plan, floorIndex, scale)` produce the same result (byte-identical text on
success, the identical error otherwise) regardless of the ambient world
(clock, randomness), which its body never consults. -/
theorem generateDXF_deterministic (w1 w2 : World) (planData : Planner.NPlan)
    (floorIndex : Nat) (scale : Rat) :
    generateDXF w1 planData floorIndex scale = generateDXF w2 planData floorIndex scale := rfl

end Dxf

namespace Dwg

/-- The environment with no CloudConvert key configured and no working local
tool: `dwgwrite` and the ODA converter runs fail. -/
def envNoTools : ConvEnv := ⟨none, .error "unreachable: no API key", none, none⟩

/-- Claim C8, counterexample: with no strategy configured, `convertDXFtoDWG`
resolves to the bare original DXF text (the buffer `convertWithLibreDWG`
returns from its internal catch-all fallback), not to a
`{fallbackText, format: "fallback-text"}` object — no `fallback`-tagged result
is produced at all, let alone one tagged `"fallback-text"`. -/
theorem convertDXFtoDWG_fallback_cex :
    convertDXFtoDWG envNoTools none "DXFTEXT" = .ok (DwgResult.buffer "DXFTEXT") ∧
    DwgResult.buffer "DXFTEXT" ≠ DwgResult.fallback "DXFTEXT" "fallback-text"
      "DWG conversion unavailable, returning DXF format (compatible with AutoCAD)" := by
  constructor
  · rfl
  · decide

/-- Claim C8, amended: in auto mode the conversion chain never throws to its
caller, and when no remote-service key is configured and the local `dwgwrite`
run fails (or the tool is absent), it resolves to the original drawing text —
as a bare buffer produced by the LibreDWG strategy's internal fallback, not as
the tagged `{buffer, format: "dxf", message}` object, which is reachable only
if every method throws (and `convertWithLibreDWG` never throws). -/
theorem convertDXFtoDWG_degrade (env : ConvEnv) (dxfContent : String) :
    (convertDXFtoDWG env none dxfContent).isOk = true ∧
    (env.cloudConvertApiKey = none → env.dwgwriteOutcome = none →
      convertDXFtoDWG env none dxfContent = .ok (DwgResult.buffer dxfContent)) := by
  constructor
  · cases hk : env.cloudConvertApiKey <;> cases hd : env.dwgwriteOutcome <;>
      cases hc : env.cloudOutcome <;>
        simp [convertDXFtoDWG, tryMethods, runMethod, convertWithCloudConvert,
          convertWithLibreDWG, hk, hd, hc, Except.isOk, Except.toBool]
  · intro hk hd
    simp [convertDXFtoDWG, tryMethods, runMethod, convertWithCloudConvert,
      convertWithLibreDWG, hk, hd]

/-- Claim C8, witness: at the concrete no-tools environment the amended
theorem yields the bare original text. -/
theorem convertDXFtoDWG_degrade_witness :
    convertDXFtoDWG envNoTools none "D" = .ok (DwgResult.buffer "D") :=
  (convertDXFtoDWG_degrade envNoTools "D").2 rfl rfl

end Dwg

namespace Planner

/-- `checkOverlaps` succeeds whenever every later room carries both position
and dimensions. -/
theorem checkOverlaps_isOk (level : String) (room : NRoom) (g : RoomGeom) :
    ∀ rest : List NRoom, (∀ r ∈ rest, r.position.isSome ∧ r.dimensions.isSome) →
      ∃ es, checkOverlaps level room g rest = .ok es := by
  intro rest
  induction rest with
  | nil => exact fun _ => ⟨[], rfl⟩
  | cons other t ih =>
    intro h
    obtain ⟨hp, hd⟩ := h other (List.mem_cons_self other t)
    obtain ⟨p2, hp2⟩ := Option.isSome_iff_exists.mp hp
    obtain ⟨d2, hd2⟩ := Option.isSome_iff_exists.mp hd
    obtain ⟨es, hes⟩ := ih (fun r hr => h r (List.mem_cons_of_mem _ hr))
    simp only [checkOverlaps, hp2, hd2, hes, bind, Except.bind]
    exact ⟨_, rfl⟩

/-- `checkRoom` succeeds whenever every later room carries both position and
dimensions (the room under scrutiny itself is guarded in the source). -/
theorem checkRoom_isOk (bw bd : Rat) (level : String) (room : NRoom)
    (laterRooms : List NRoom)
    (h : ∀ r ∈ laterRooms, r.position.isSome ∧ r.dimensions.isSome) :
    ∃ es, checkRoom bw bd level room laterRooms = .ok es := by
  unfold checkRoom
  cases hp : room.position with
  | none => cases room.dimensions <;> exact ⟨_, rfl⟩
  | some p =>
    cases hd : room.dimensions with
    | none => exact ⟨_, rfl⟩
    | some d =>
      obtain ⟨es, hes⟩ := checkOverlaps_isOk level room ⟨p, d⟩ laterRooms h
      simp only [hes, bind, Except.bind]
      exact ⟨_, rfl⟩

/-- `checkFloorRooms` succeeds whenever every room of the floor carries both
position and dimensions. -/
theorem checkFloorRooms_isOk (bw bd : Rat) (level : String) :
    ∀ rooms : List NRoom, (∀ r ∈ rooms, r.position.isSome ∧ r.dimensions.isSome) →
      ∃ es, checkFloorRooms bw bd level rooms = .ok es := by
  intro rooms
  induction rooms with
  | nil => exact fun _ => ⟨[], rfl⟩
  | cons room t ih =>
    intro h
    obtain ⟨e1, he1⟩ := checkRoom_isOk bw bd level room t
      (fun r hr => h r (List.mem_cons_of_mem _ hr))
    obtain ⟨e2, he2⟩ := ih (fun r hr => h r (List.mem_cons_of_mem _ hr))
    simp only [checkFloorRooms, he1, he2, bind, Except.bind]
    exact ⟨_, rfl⟩

/-- `checkFloors` succeeds whenever every room of every floor carries both
position and dimensions. -/
theorem checkFloors_isOk (bw bd : Rat) :
    ∀ floors : List NFloor,
      (∀ f ∈ floors, ∀ r ∈ f.rooms, r.position.isSome ∧ r.dimensions.isSome) →
      ∃ es, checkFloors bw bd floors = .ok es := by
  intro floors
  induction floors with
  | nil => exact fun _ => ⟨[], rfl⟩
  | cons f t ih =>
    intro h
    obtain ⟨e1, he1⟩ := checkFloorRooms_isOk bw bd f.level f.rooms
      (h f (List.mem_cons_self f t))
    obtain ⟨e2, he2⟩ := ih (fun f2 hf2 => h f2 (List.mem_cons_of_mem _ hf2))
    simp only [checkFloors, he1, he2, bind, Except.bind]
    exact ⟨_, rfl⟩

/-- The report `validatePlanGeometry` returns always satisfies
`valid = errors.isEmpty` (on both construction sites). -/
theorem validatePlanGeometry_shape (plan : NPlan) (rep : VReport)
    (h : validatePlanGeometry plan = .ok rep) : rep.valid = rep.errors.isEmpty := by
  unfold validatePlanGeometry at h
  cases hbd : plan.buildingDimensions with
  | none =>
    rw [hbd] at h
    simp only [bind, Except.bind] at h
    injection h with h2
    subst h2
    rfl
  | some bd =>
    rw [hbd] at h
    simp only [bind, Except.bind] at h
    cases hcf : checkFloors bd.width bd.depth plan.floors with
    | error e => rw [hcf] at h; simp at h
    | ok errs =>
      rw [hcf] at h
      simp only at h
      injection h with h2
      subst h2
      rfl

/-- Claim C2, counterexample: a plan whose floor lists a geometry-complete
room before a room lacking position and dimensions makes
`validatePlanGeometry` throw — `roomsOverlap` dereferences
`otherRoom.position.x` without a guard, so the validator does not return a
report at all. -/
def c2BadPlan : NPlan :=
  ⟨"Residential", some 100, some ⟨20, 20⟩,
   [⟨"Ground", some 100,
     [⟨"r0", "A", "room", some 100, some ⟨10, 10⟩, some ⟨0, 0⟩, [], []⟩,
      ⟨"r1", "B", "room", some 100, none, none, [], []⟩]⟩],
   none, [], none⟩

/-- Claim C2, counterexample theorem: the validator throws a `TypeError` on
`c2BadPlan` instead of returning a `{valid, errors}` report. -/
theorem validatePlanGeometry_throws_cex :
    validatePlanGeometry c2BadPlan = .error "TypeError: Cannot read properties of undefined" := by
  decide

/-- Claim C2, amended: `validatePlanGeometry` never throws and returns a
`{valid, errors}` report with `valid = (errors = [])` for every plan in which
each room carries both position and dimensions; a geometry-complete room
preceding an incomplete one on the same floor instead raises a `TypeError`
(see the counterexample). -/
theorem validatePlanGeometry_total_of_complete (plan : NPlan)
    (h : ∀ f ∈ plan.floors, ∀ r ∈ f.rooms, r.position.isSome ∧ r.dimensions.isSome) :
    (validatePlanGeometry plan).isOk = true ∧
    ∀ rep, validatePlanGeometry plan = .ok rep → rep.valid = rep.errors.isEmpty := by
  refine ⟨?_, fun rep hrep => validatePlanGeometry_shape plan rep hrep⟩
  unfold validatePlanGeometry
  cases hbd : plan.buildingDimensions with
  | none => rfl
  | some bd =>
    obtain ⟨es, hes⟩ := checkFloors_isOk bd.width bd.depth plan.floors h
    simp [hes, bind, Except.bind, Except.isOk, Except.toBool]

/-- Claim C2, witness: the amended theorem applied to the concrete
geometry-complete plan `scen3Plan`. -/
theorem validatePlanGeometry_total_witness :
    (validatePlanGeometry scen3Plan).isOk = true :=
  (validatePlanGeometry_total_of_complete scen3Plan (by decide)).1

end Planner

namespace Planner

/-- An optional number that is not JS-falsy is present. -/
theorem isSome_of_not_numFalsy (o : Option Rat) (h : numFalsy o = false) : o.isSome = true := by
  cases o with
  | none => simp [numFalsy] at h
  | some q => rfl

/-- `normalizeFloor` fails exactly when the floor's rooms collection is
missing or empty. -/
theorem normalizeFloor_isOk_iff (i : Nat) (floor : RawFloor) :
    (normalizeFloor i floor).isOk = false ↔ (floor.rooms = none ∨ floor.rooms = some []) := by
  unfold normalizeFloor
  cases hr : floor.rooms with
  | none => simp [Except.isOk, Except.toBool]
  | some l =>
    cases l with
    | nil => simp [Except.isOk, Except.toBool]
    | cons r t => simp [Except.isOk, Except.toBool]

/-- `normalizeFloors` fails exactly when some floor's rooms collection is
missing or empty. -/
theorem normalizeFloors_isOk_iff :
    ∀ (i : Nat) (fs : List RawFloor),
      (normalizeFloors i fs).isOk = false ↔ ∃ f ∈ fs, (f.rooms = none ∨ f.rooms = some []) := by
  intro i fs
  induction fs generalizing i with
  | nil => simp [normalizeFloors, Except.isOk, Except.toBool]
  | cons f t ih =>
    simp only [normalizeFloors, bind, Except.bind]
    cases hf : normalizeFloor i f with
    | error e =>
      have hff := (normalizeFloor_isOk_iff i f).mp (by rw [hf]; rfl)
      simp [Except.isOk, Except.toBool]
      exact Or.inl hff
    | ok nf =>
      have hok : ¬(f.rooms = none ∨ f.rooms = some []) := by
        intro hc
        have := (normalizeFloor_isOk_iff i f).mpr hc
        rw [hf] at this
        simp [Except.isOk, Except.toBool] at this
      cases hrec : normalizeFloors (i + 1) t with
      | error e2 =>
        have := (ih (i + 1)).mp (by rw [hrec]; rfl)
        obtain ⟨f2, hf2, hc2⟩ := this
        simp [Except.isOk, Except.toBool]
        exact Or.inr ⟨f2, hf2, hc2⟩
      | ok nfs =>
        have hnone := (ih (i + 1)).not.mp (by rw [hrec]; simp [Except.isOk, Except.toBool])
        simp only [Except.isOk, Except.toBool]
        constructor
        · intro hc; cases hc
        · rintro ⟨f2, hmem, hc2⟩
          rcases List.mem_cons.mp hmem with rfl | hmem2
          · exact absurd hc2 hok
          · exact absurd ⟨f2, hmem2, hc2⟩ hnone

/-- Claim C4 helper: the error characterization of the normalizer — it fails
exactly for undecodable content, a missing floors collection, an empty floors
collection, or a floor whose rooms collection is missing or empty. -/
theorem parseAndValidateResponse_isOk_iff (mraw : Option RawPlan) (meta : PlanMeta) :
    (parseAndValidateResponse mraw meta).isOk = false ↔
      (mraw = none ∨ ∃ raw, mraw = some raw ∧
        (raw.floors = none ∨ raw.floors = some [] ∨
         ∃ fs, raw.floors = some fs ∧ ∃ f ∈ fs, (f.rooms = none ∨ f.rooms = some []))) := by
  cases mraw with
  | none => simp [parseAndValidateResponse, Except.isOk, Except.toBool]
  | some raw =>
    simp only [parseAndValidateResponse]
    cases hfl : raw.floors with
    | none => simp [Except.isOk, Except.toBool, hfl]
    | some fs =>
      cases fs with
      | nil => simp [Except.isOk, Except.toBool, hfl]
      | cons f t =>
        simp only [List.isEmpty_cons, Bool.false_eq_true, if_false]
        cases hnf : normalizeFloors 0 (f :: t) with
        | error e =>
          have := (normalizeFloors_isOk_iff 0 (f :: t)).mp (by rw [hnf]; rfl)
          simp [Except.isOk, Except.toBool, hfl]
          obtain ⟨f2, hm, hc⟩ := this
          rcases List.mem_cons.mp hm with rfl | hm2
          · exact Or.inl hc
          · exact Or.inr ⟨f2, hm2, hc⟩
        | ok nfs =>
          have hnone := (normalizeFloors_isOk_iff 0 (f :: t)).not.mp
            (by rw [hnf]; simp [Except.isOk, Except.toBool])
          simp only [Except.isOk, Except.toBool, hfl]
          constructor
          · intro hc; cases hc
          · rintro (hc | ⟨raw2, hraw2, hc⟩)
            · cases hc
            · cases hraw2
              rcases hc with hc | hc | ⟨fs2, hfs2, hex⟩
              · rw [hfl] at hc; cases hc
              · rw [hfl] at hc; cases hc
              · rw [hfl] at hfs2
                cases hfs2
                exact absurd hex hnone

end Planner

namespace Planner

/-- The fill-in invariants of one normalized room: the position is always
filled; a room that ends without an area also ends without dimensions; a room
that ends without dimensions had a falsy area (so there was nothing to derive
either field from). -/
theorem normalizeRoom_inv (fi ri : Nat) (room : RawRoom) :
    (normalizeRoom fi ri room).position.isSome = true ∧
    ((normalizeRoom fi ri room).areaSqft = none → (normalizeRoom fi ri room).dimensions = none) ∧
    ((normalizeRoom fi ri room).dimensions = none →
      numFalsy (normalizeRoom fi ri room).areaSqft = true) := by
  unfold normalizeRoom
  cases hd : room.dimensions with
  | some d =>
    cases ha : room.areaSqft with
    | none => simp [numFalsy, hd, ha]
    | some q =>
      by_cases hz : q = 0
      · simp [numFalsy, hd, ha, hz]
      · simp [numFalsy, hd, ha, hz]
  | none =>
    cases ha : room.areaSqft with
    | none => simp [numFalsy, hd, ha]
    | some q =>
      by_cases hz : q = 0
      · simp [numFalsy, hd, ha, hz]
      · simp [numFalsy, hd, ha, hz]

/-- Every room of a normalized room list is some `normalizeRoom` output. -/
theorem mem_normalizeRooms (fi : Nat) :
    ∀ (i : Nat) (l : List RawRoom) (r : NRoom), r ∈ normalizeRooms fi i l →
      ∃ j raw, r = normalizeRoom fi j raw := by
  intro i l
  induction l generalizing i with
  | nil => intro r hr; simp [normalizeRooms] at hr
  | cons room t ih =>
    intro r hr
    simp only [normalizeRooms, List.mem_cons] at hr
    rcases hr with rfl | hr2
    · exact ⟨i, room, rfl⟩
    · exact ih (i + 1) r hr2

/-- The success shape of `normalizeFloor`: the floor total is filled and the
rooms are the normalized rooms of the raw floor. -/
theorem normalizeFloor_ok_shape (i : Nat) (floor : RawFloor) (nf : NFloor)
    (h : normalizeFloor i floor = .ok nf) :
    nf.totalArea.isSome = true ∧ ∃ rooms0, nf.rooms = normalizeRooms i 0 rooms0 := by
  unfold normalizeFloor at h
  cases hr : floor.rooms with
  | none => rw [hr] at h; cases h
  | some l =>
    rw [hr] at h
    cases l with
    | nil => simp at h
    | cons room t =>
      simp only [List.isEmpty_cons, Bool.false_eq_true, if_false] at h
      injection h with h2
      subst h2
      refine ⟨?_, ⟨room :: t, rfl⟩⟩
      by_cases hf : numFalsy floor.totalArea = true
      · simp [hf]
      · simp only [Bool.not_eq_true] at hf
        simp [hf, isSome_of_not_numFalsy floor.totalArea hf]

/-- Every floor of a normalized floor list is some `normalizeFloor` output. -/
theorem mem_normalizeFloors :
    ∀ (i : Nat) (fs : List RawFloor) (nfs : List NFloor),
      normalizeFloors i fs = .ok nfs →
      ∀ nf ∈ nfs, ∃ j f0, normalizeFloor j f0 = .ok nf := by
  intro i fs
  induction fs generalizing i with
  | nil =>
    intro nfs h nf hnf
    simp only [normalizeFloors] at h
    injection h with h2
    subst h2
    simp at hnf
  | cons f t ih =>
    intro nfs h nf hnf
    simp only [normalizeFloors, bind, Except.bind] at h
    cases hf : normalizeFloor i f with
    | error e => rw [hf] at h; cases h
    | ok nf1 =>
      rw [hf] at h
      cases hrec : normalizeFloors (i + 1) t with
      | error e2 => rw [hrec] at h; cases h
      | ok nfs2 =>
        rw [hrec] at h
        injection h with h2
        subst h2
        rcases List.mem_cons.mp hnf with rfl | hm2
        · exact ⟨i, f, hf⟩
        · exact ih (i + 1) nfs2 hrec nf hm2

/-- Claim C4 helper: the fill-in guarantees on a successfully normalized
plan. -/
theorem parseAndValidateResponse_ok_shape (mraw : Option RawPlan) (meta : PlanMeta)
    (plan : NPlan) (h : parseAndValidateResponse mraw meta = .ok plan) :
    plan.buildingDimensions.isSome = true ∧ plan.totalArea.isSome = true ∧
    ∀ f ∈ plan.floors, f.totalArea.isSome = true ∧
      ∀ r ∈ f.rooms, r.position.isSome = true ∧
        (r.areaSqft = none → r.dimensions = none) ∧
        (r.dimensions = none → numFalsy r.areaSqft = true) := by
  cases mraw with
  | none => cases h
  | some raw =>
    simp only [parseAndValidateResponse] at h
    cases hfl : raw.floors with
    | none => rw [hfl] at h; cases h
    | some fs =>
      rw [hfl] at h
      cases fs with
      | nil => simp at h
      | cons f t =>
        simp only [List.isEmpty_cons, Bool.false_eq_true, if_false] at h
        cases hnf : normalizeFloors 0 (f :: t) with
        | error e => rw [hnf] at h; cases h
        | ok nfloors =>
          rw [hnf] at h
          injection h with h2
          subst h2
          refine ⟨?_, ?_, ?_⟩
          · cases hbd : raw.buildingDimensions with
            | none => simp [hbd]
            | some b => simp [hbd]
          · by_cases hta : numFalsy raw.totalArea = true
            · simp [hta]
            · simp only [Bool.not_eq_true] at hta
              simp [hta, isSome_of_not_numFalsy raw.totalArea hta]
          · intro nf hnfm
            obtain ⟨j, f0, hjf⟩ := mem_normalizeFloors 0 (f :: t) nfloors hnf nf hnfm
            obtain ⟨hts, rooms0, hr0⟩ := normalizeFloor_ok_shape j f0 nf hjf
            refine ⟨hts, ?_⟩
            intro r hrm
            rw [hr0] at hrm
            obtain ⟨j2, raw2, hr2⟩ := mem_normalizeRooms j 0 rooms0 r hrm
            rw [hr2]
            exact normalizeRoom_inv j j2 raw2

end Planner

namespace Planner

/-- Claim C4 (amended): the normalizer fails exactly when the content is
undecodable, the floors collection is missing or empty, or some floor's rooms
collection is missing or empty; every other input yields a plan whose
building dimensions, plan total and floor totals are filled, whose rooms all
carry a position, and whose rooms are missing area/dimensions only when the
raw room supplied neither dimensions nor a non-zero area. -/
theorem parseAndValidateResponse_spec :
    (∀ (mraw : Option RawPlan) (meta : PlanMeta),
      (parseAndValidateResponse mraw meta).isOk = false ↔
        (mraw = none ∨ ∃ raw, mraw = some raw ∧
          (raw.floors = none ∨ raw.floors = some [] ∨
           ∃ fs, raw.floors = some fs ∧ ∃ f ∈ fs, (f.rooms = none ∨ f.rooms = some []))))
  ∧ (∀ (mraw : Option RawPlan) (meta : PlanMeta) (plan : NPlan),
      parseAndValidateResponse mraw meta = .ok plan →
      plan.buildingDimensions.isSome = true ∧ plan.totalArea.isSome = true ∧
      ∀ f ∈ plan.floors, f.totalArea.isSome = true ∧
        ∀ r ∈ f.rooms, r.position.isSome = true ∧
          (r.areaSqft = none → r.dimensions = none) ∧
          (r.dimensions = none → numFalsy r.areaSqft = true)) :=
  ⟨parseAndValidateResponse_isOk_iff, parseAndValidateResponse_ok_shape⟩

/-- A raw plan whose single room supplies neither an area nor dimensions. -/
def c4RawNoArea : RawPlan :=
  ⟨none, none, some ⟨40, 30⟩,
   some [⟨none, none, some [⟨none, none, none, none, none, none, none, none⟩]⟩], none, none⟩

/-- What the normalizer returns on `c4RawNoArea`: note `areaSqft := none` and
`dimensions := none` on the resulting room. -/
def c4PlanNoArea : NPlan :=
  ⟨"Residential", some 0, some ⟨40, 30⟩,
   [⟨"Ground", some 0,
     [⟨"room-0-0", "Room 1", "room", none, none, some ⟨0, 0⟩, [], []⟩]⟩],
   some ⟨"south", 0, "modern"⟩, [], none⟩

/-- Claim C4, counterexample: a room that supplies neither area nor
dimensions is returned with both fields still absent, refuting the claim that
every non-failing input comes back with all fill-in fields (areas,
dimensions) populated. -/
theorem parseAndValidateResponse_unfilled_cex :
    parseAndValidateResponse (some c4RawNoArea) ⟨none⟩ = .ok c4PlanNoArea := by
  decide

/-- A fully-specified raw plan whose normalization succeeds and also passes
geometry validation (used as the concrete all-good input by several
witnesses). -/
def okRaw : RawPlan :=
  ⟨some "Residential", some 100, some ⟨40, 30⟩,
   some [⟨some "Ground", some 100,
     some [⟨some "r1", some "Kitchen", some "kitchen", some 100, some ⟨10, 10⟩,
       some ⟨0, 0⟩, some [], some []⟩]⟩],
   some ⟨"south", 0, "modern"⟩, some []⟩

/-- The normalization of `okRaw`. -/
def okPlan : NPlan :=
  ⟨"Residential", some 100, some ⟨40, 30⟩,
   [⟨"Ground", some 100,
     [⟨"r1", "Kitchen", "kitchen", some 100, some ⟨10, 10⟩, some ⟨0, 0⟩, [], []⟩]⟩],
   some ⟨"south", 0, "modern"⟩, [], none⟩

/-- Claim C4, witness: the amended theorem applied at the concrete input
`okRaw`, whose normalization succeeds with the building dimensions filled. -/
theorem parseAndValidateResponse_spec_witness :
    parseAndValidateResponse (some okRaw) ⟨none⟩ = .ok okPlan ∧
    okPlan.buildingDimensions.isSome = true :=
  ⟨by decide, (parseAndValidateResponse_spec.2 (some okRaw) ⟨none⟩ okPlan (by decide)).1⟩

end Planner

namespace Planner

/-- The retry loop makes at most `fuel` provider invocations. -/
theorem genLoop_calls_le (meta : PlanMeta) (key : String) (cache : PCache) (now : Nat)
    (outcomes : Nat → AttemptInput) :
    ∀ (fuel attempt : Nat) (lastErr : Option ErrCode),
      (genLoop meta key cache now outcomes attempt fuel lastErr).2.1 ≤ fuel := by
  intro fuel
  induction fuel with
  | zero => intro attempt lastErr; simp [genLoop]
  | succ n ih =>
    intro attempt lastErr
    unfold genLoop
    cases houts : outcomes attempt with
    | throwErr code =>
      dsimp only
      by_cases h1 : code = ErrCode.insufficientQuota
      · simp [h1]
      · by_cases h2 : code = ErrCode.contextLengthExceeded
        · simp [h1, h2]
        · rw [if_neg h1, if_neg h2]
          exact Nat.succ_le_succ (ih (attempt + 1) (some code))
    | response content usage =>
      cases content with
      | none =>
        dsimp only
        exact Nat.succ_le_succ (ih (attempt + 1) (some ErrCode.noCode))
      | some mraw =>
        dsimp only
        cases hp : parseAndValidateResponse mraw meta with
        | error e =>
          dsimp only
          exact Nat.succ_le_succ (ih (attempt + 1) (some ErrCode.noCode))
        | ok plan =>
          dsimp only
          cases hv : validatePlanGeometry plan with
          | error e =>
            dsimp only
            exact Nat.succ_le_succ (ih (attempt + 1) (some ErrCode.noCode))
          | ok vr =>
            dsimp only
            by_cases hval : vr.valid = true
            · simp [hval]
            · simp only [Bool.not_eq_true] at hval
              rw [hval]
              by_cases ha : attempt < maxRetries
              · simp only [if_pos ha, Bool.false_eq_true, if_false]
                exact Nat.succ_le_succ (ih (attempt + 1) lastErr)
              · simp [ha]

/-- Claim C5: the retry loop invokes the provider at most 3 times; and when
the provider's responses parse successfully but fail geometry validation on
all three attempts (a cache miss, the response of every attempt normalizing
to a plan whose validation returns an invalid report), `generatePlan` still
returns `{plan, usage}` — the third attempt's plan with the third report's
violation list attached as `validationWarnings`, necessarily non-empty — after
exactly 3 provider invocations. -/
theorem generatePlan_retry_spec :
    (∀ (cache : PCache) (now : Nat) (prompt : String) (meta : PlanMeta)
        (outcomes : Nat → AttemptInput),
      (generatePlan cache now prompt meta outcomes).2.1 ≤ 3)
  ∧ (∀ (cache : PCache) (now : Nat) (prompt : String) (meta : PlanMeta)
        (outcomes : Nat → AttemptInput)
        (raws : Nat → Option RawPlan) (usages : Nat → Usage)
        (plans : Nat → NPlan) (reports : Nat → VReport),
      getFromCache cache (getCacheKey prompt meta) now = none →
      (∀ i, outcomes i = .response (some (raws i)) (usages i)) →
      (∀ i, parseAndValidateResponse (raws i) meta = .ok (plans i)) →
      (∀ i, validatePlanGeometry (plans i) = .ok (reports i)) →
      (∀ i, (reports i).valid = false) →
      (generatePlan cache now prompt meta outcomes).1 =
        .ok ⟨{ plans 3 with validationWarnings := some (reports 3).errors }, usages 3⟩ ∧
      (generatePlan cache now prompt meta outcomes).2.1 = 3 ∧
      (reports 3).errors ≠ []) := by
  constructor
  · intro cache now prompt meta outcomes
    simp only [generatePlan]
    cases hg : getFromCache cache (getCacheKey prompt meta) now with
    | some r => simp
    | none =>
      dsimp only
      exact genLoop_calls_le meta (getCacheKey prompt meta) cache now outcomes 3 1 none
  · intro cache now prompt meta outcomes raws usages plans reports hmiss houts hp hv hval
    have e3 : genLoop meta (getCacheKey prompt meta) cache now outcomes 3 1 none =
        (.ok ⟨{ plans 3 with validationWarnings := some (reports 3).errors }, usages 3⟩, 1,
         setCache cache (getCacheKey prompt meta)
           ⟨{ plans 3 with validationWarnings := some (reports 3).errors }, usages 3⟩ now) := by
      unfold genLoop
      rw [houts 3]
      simp only [hp 3, hv 3, hval 3, maxRetries, Bool.false_eq_true, if_false]
      norm_num
    have e2 : genLoop meta (getCacheKey prompt meta) cache now outcomes 2 2 none =
        (.ok ⟨{ plans 3 with validationWarnings := some (reports 3).errors }, usages 3⟩, 2,
         setCache cache (getCacheKey prompt meta)
           ⟨{ plans 3 with validationWarnings := some (reports 3).errors }, usages 3⟩ now) := by
      unfold genLoop
      rw [houts 2]
      simp only [hp 2, hv 2, hval 2, maxRetries, Bool.false_eq_true, if_false]
      norm_num [e3]
    have e1 : genLoop meta (getCacheKey prompt meta) cache now outcomes 1 3 none =
        (.ok ⟨{ plans 3 with validationWarnings := some (reports 3).errors }, usages 3⟩, 3,
         setCache cache (getCacheKey prompt meta)
           ⟨{ plans 3 with validationWarnings := some (reports 3).errors }, usages 3⟩ now) := by
      unfold genLoop
      rw [houts 1]
      simp only [hp 1, hv 1, hval 1, maxRetries, Bool.false_eq_true, if_false]
      norm_num [e2]
    have hshape := validatePlanGeometry_shape (plans 3) (reports 3) (hv 3)
    refine ⟨?_, ?_, ?_⟩
    · simp only [generatePlan, hmiss]
      rw [show maxRetries = 3 from rfl, e1]
    · simp only [generatePlan, hmiss]
      rw [show maxRetries = 3 from rfl, e1]
    · intro hnil
      rw [hval 3, hnil] at hshape
      simp at hshape

/-- The raw plan whose single room sits at x = 35 on a 40 x 30 building, so
geometry validation always fails. -/
def violRaw : RawPlan :=
  ⟨some "Residential", some 100, some ⟨40, 30⟩,
   some [⟨some "Ground", some 100,
     some [⟨some "r1", some "Test Room", some "room", some 100, some ⟨10, 10⟩,
       some ⟨35, 0⟩, some [], some []⟩]⟩],
   some ⟨"south", 0, "modern"⟩, some []⟩

/-- The normalization of `violRaw`. -/
def violPlan : NPlan :=
  ⟨"Residential", some 100, some ⟨40, 30⟩,
   [⟨"Ground", some 100,
     [⟨"r1", "Test Room", "room", some 100, some ⟨10, 10⟩, some ⟨35, 0⟩, [], []⟩]⟩],
   some ⟨"south", 0, "modern"⟩, [], none⟩

/-- The validation report of `violPlan`. -/
def violReport : VReport :=
  ⟨false, ["Room \"Test Room\" exceeds building width (35 + 10 > 40)"]⟩

/-- The token usage the witness provider reports. -/
def violUsage : Usage := ⟨1, 2, 3⟩

/-- A provider that answers every attempt with `violRaw`. -/
def violOuts : Nat → AttemptInput := fun _ => .response (some (some violRaw)) violUsage

/-- Claim C5, witness: the retry theorem applied to the concrete provider
that always answers with the bounds-violating plan — three invocations and the
warning-annotated result. -/
theorem generatePlan_retry_witness :
    (generatePlan [] 0 "p" ⟨none⟩ violOuts).1 =
      .ok ⟨{ violPlan with validationWarnings := some violReport.errors }, violUsage⟩ ∧
    (generatePlan [] 0 "p" ⟨none⟩ violOuts).2.1 = 3 :=
  let h := generatePlan_retry_spec.2 [] 0 "p" ⟨none⟩ violOuts (fun _ => some violRaw)
    (fun _ => violUsage) (fun _ => violPlan) (fun _ => violReport)
    (by decide) (fun _ => rfl)
    (fun _ => (by decide : parseAndValidateResponse (some violRaw) ⟨none⟩ = Except.ok violPlan))
    (fun _ => (by decide : validatePlanGeometry violPlan = Except.ok violReport))
    (fun _ => rfl)
  ⟨h.1, h.2.1⟩

end Planner

namespace Planner

/-- `Map.set` then `Map.get` of the same key yields the new value. -/
theorem mapGet_mapSet_self {V : Type} (c : List (String × V)) (k : String) (v : V) :
    mapGet (mapSet c k v) k = some v := by
  induction c with
  | nil => simp [mapSet, mapGet]
  | cons p t ih =>
    by_cases h : p.1 = k
    · simp [mapSet, mapGet, h]
    · simp [mapSet, mapGet, h, ih]

/-- The freshly set entry survives any filter that keeps it, and `Map.get`
still finds it first. -/
theorem mapGet_filter_mapSet {V : Type} (c : List (String × V)) (k : String) (v : V)
    (pred : String × V → Bool) (hv : pred (k, v) = true) :
    mapGet ((mapSet c k v).filter pred) k = some v := by
  induction c with
  | nil => simp [mapSet, List.filter, hv, mapGet]
  | cons p t ih =>
    by_cases h : p.1 = k
    · simp [mapSet, h, List.filter_cons, hv, mapGet]
    · simp only [mapSet, if_neg h]
      by_cases hp : pred p = true
      · simp [List.filter_cons, hp, mapGet, h, ih]
      · simp [List.filter_cons, hp, ih]

/-- A fresh `setCache` write is readable while younger than the TTL. -/
theorem getFromCache_setCache (c : PCache) (k : String) (d : GenResult) (now now2 : Nat)
    (h2 : now2 - now < cacheMaxAge) :
    getFromCache (setCache c k d now) k now2 = some d := by
  unfold setCache getFromCache
  by_cases hlen : 100 < (mapSet c k ⟨d, now⟩).length
  · rw [if_pos hlen, mapGet_filter_mapSet c k ⟨d, now⟩ _ (by simp [Nat.sub_self])]
    simp [h2]
  · rw [if_neg hlen, mapGet_mapSet_self]
    simp [h2]

/-- When the retry loop succeeds, the cache it leaves behind is exactly the
`setCache` write of the returned result. -/
theorem genLoop_ok_cache (meta : PlanMeta) (key : String) (cache : PCache) (now : Nat)
    (outcomes : Nat → AttemptInput) :
    ∀ (fuel attempt : Nat) (lastErr : Option ErrCode) (r : GenResult) (n : Nat) (c2 : PCache),
      genLoop meta key cache now outcomes attempt fuel lastErr = (.ok r, n, c2) →
      c2 = setCache cache key r now := by
  intro fuel
  induction fuel with
  | zero =>
    intro attempt lastErr r n c2 h
    simp [genLoop, Prod.mk.injEq] at h
  | succ m ih =>
    intro attempt lastErr r n c2 h
    unfold genLoop at h
    cases houts : outcomes attempt with
    | throwErr code =>
      rw [houts] at h
      dsimp only at h
      by_cases h1 : code = ErrCode.insufficientQuota
      · rw [if_pos h1] at h; simp [Prod.mk.injEq] at h
      · rw [if_neg h1] at h
        by_cases hc2 : code = ErrCode.contextLengthExceeded
        · rw [if_pos hc2] at h; simp [Prod.mk.injEq] at h
        · rw [if_neg hc2] at h
          rcases he : genLoop meta key cache now outcomes (attempt + 1) m (some code) with
            ⟨res, cnt, cch⟩
          rw [he] at h
          simp only [Prod.mk.injEq] at h
          obtain ⟨hres, _, hcch⟩ := h
          rw [hres, hcch] at he
          exact ih (attempt + 1) (some code) r cnt c2 he
    | response content usage =>
      rw [houts] at h
      dsimp only at h
      cases content with
      | none =>
        dsimp only at h
        rcases he : genLoop meta key cache now outcomes (attempt + 1) m (some ErrCode.noCode) with
          ⟨res, cnt, cch⟩
        rw [he] at h
        simp only [Prod.mk.injEq] at h
        obtain ⟨hres, _, hcch⟩ := h
        rw [hres, hcch] at he
        exact ih (attempt + 1) (some ErrCode.noCode) r cnt c2 he
      | some mraw =>
        dsimp only at h
        cases hp : parseAndValidateResponse mraw meta with
        | error e =>
          rw [hp] at h
          dsimp only at h
          rcases he : genLoop meta key cache now outcomes (attempt + 1) m (some ErrCode.noCode) with
            ⟨res, cnt, cch⟩
          rw [he] at h
          simp only [Prod.mk.injEq] at h
          obtain ⟨hres, _, hcch⟩ := h
          rw [hres, hcch] at he
          exact ih (attempt + 1) (some ErrCode.noCode) r cnt c2 he
        | ok plan =>
          rw [hp] at h
          dsimp only at h
          cases hv : validatePlanGeometry plan with
          | error e =>
            rw [hv] at h
            dsimp only at h
            rcases he : genLoop meta key cache now outcomes (attempt + 1) m (some ErrCode.noCode) with
              ⟨res, cnt, cch⟩
            rw [he] at h
            simp only [Prod.mk.injEq] at h
            obtain ⟨hres, _, hcch⟩ := h
            rw [hres, hcch] at he
            exact ih (attempt + 1) (some ErrCode.noCode) r cnt c2 he
          | ok vr =>
            rw [hv] at h
            dsimp only at h
            by_cases hval : vr.valid = true
            · rw [if_pos hval] at h
              simp only [Prod.mk.injEq] at h
              obtain ⟨hres, _, hcch⟩ := h
              injection hres with hres2
              rw [← hcch, ← hres2]
            · rw [if_neg hval] at h
              by_cases ha : attempt < maxRetries
              · rw [if_pos ha] at h
                rcases he : genLoop meta key cache now outcomes (attempt + 1) m lastErr with
                  ⟨res, cnt, cch⟩
                rw [he] at h
                simp only [Prod.mk.injEq] at h
                obtain ⟨hres, _, hcch⟩ := h
                rw [hres, hcch] at he
                exact ih (attempt + 1) lastErr r cnt c2 he
              · rw [if_neg ha] at h
                simp only [Prod.mk.injEq] at h
                obtain ⟨hres, _, hcch⟩ := h
                injection hres with hres2
                rw [← hcch, ← hres2]

/-- Claim C6: (round trip) after a successful `generatePlan` that invoked the
provider, a second call with the identical `(prompt, meta)` within the
5-minute TTL returns the identical cached `{plan, usage}` with zero provider
invocations and an unchanged cache; (sweep) `setCache` keeps an entry of the
inserted map exactly when the map holds at most 100 entries or the entry is
no older than the TTL — over 100 entries, precisely the entries strictly older
than the TTL are removed and live entries are never evicted. -/
theorem generatePlan_cache_spec :
    (∀ (cache : PCache) (t1 t2 : Nat) (prompt : String) (meta : PlanMeta)
        (outs outs2 : Nat → AttemptInput) (r : GenResult) (n : Nat) (cache2 : PCache),
      generatePlan cache t1 prompt meta outs = (.ok r, n, cache2) →
      1 ≤ n → t2 - t1 < cacheMaxAge →
      generatePlan cache2 t2 prompt meta outs2 = (.ok r, 0, cache2))
  ∧ (∀ (c : PCache) (k : String) (d : GenResult) (now : Nat) (q : String × PCacheEntry),
      q ∈ setCache c k d now ↔
        (q ∈ mapSet c k ⟨d, now⟩ ∧
          ((mapSet c k ⟨d, now⟩).length ≤ 100 ∨ now - q.2.timestamp ≤ cacheMaxAge))) := by
  constructor
  · intro cache t1 t2 prompt meta outs outs2 r n cache2 h hn ht
    simp only [generatePlan] at h ⊢
    cases hg : getFromCache cache (getCacheKey prompt meta) t1 with
    | some r0 =>
      rw [hg] at h
      simp only [Prod.mk.injEq] at h
      omega
    | none =>
      rw [hg] at h
      dsimp only at h
      have hc2 : cache2 = setCache cache (getCacheKey prompt meta) r t1 :=
        genLoop_ok_cache meta (getCacheKey prompt meta) cache t1 outs maxRetries 1 none r n cache2 h
      rw [hc2, getFromCache_setCache cache (getCacheKey prompt meta) r t1 t2 ht]
  · intro c k d now q
    unfold setCache
    by_cases h : 100 < (mapSet c k ⟨d, now⟩).length
    · rw [if_pos h]
      have hh : ¬((mapSet c k ⟨d, now⟩).length ≤ 100) := by omega
      simp [List.mem_filter, hh, Nat.not_lt]
    · rw [if_neg h]
      have hh : (mapSet c k ⟨d, now⟩).length ≤ 100 := by omega
      simp [hh]

/-- The token usage the all-good witness provider reports. -/
def okUsage : Usage := ⟨5, 6, 11⟩

/-- A provider that answers every attempt with `okRaw`. -/
def okOuts : Nat → AttemptInput := fun _ => .response (some (some okRaw)) okUsage

/-- The `{plan, usage}` result of a run against `okOuts`. -/
def okResult : GenResult := ⟨okPlan, okUsage⟩

/-- The cache a first `okOuts` run leaves behind at time 0. -/
def okCache1 : PCache := [(getCacheKey "p" ⟨none⟩, ⟨okResult, 0⟩)]

/-- Claim C6, witness: the round-trip part applied to a concrete first run at
time 0 and a second run 1 second later. -/
theorem generatePlan_cache_witness :
    generatePlan okCache1 1000 "p" ⟨none⟩ okOuts = (.ok okResult, 0, okCache1) :=
  generatePlan_cache_spec.1 [] 0 1000 "p" ⟨none⟩ okOuts okOuts okResult 1 okCache1
    (by decide) (by decide) (by decide)

end Planner

namespace Cad

open Planner

/-- Keys of an association-list map are pairwise distinct (always true of a
JS `Map`). -/
def keysNodup {V : Type} (c : List (String × V)) : Prop := (c.map Prod.fst).Nodup

instance keysNodupDecidable {V : Type} (c : List (String × V)) : Decidable (keysNodup c) :=
  List.nodupDecidable (c.map Prod.fst)

/-- `Map.set` grows the map by at most one entry. -/
theorem mapSet_length_le {V : Type} (c : List (String × V)) (k : String) (v : V) :
    (mapSet c k v).length ≤ c.length + 1 := by
  induction c with
  | nil => simp [mapSet]
  | cons p t ih =>
    by_cases h : p.1 = k
    · simp [mapSet, h]
    · simp only [mapSet, if_neg h, List.length_cons]
      omega

/-- `Map.set` leaves other keys unchanged. -/
theorem mapGet_mapSet_ne {V : Type} (c : List (String × V)) (k k2 : String) (v : V)
    (h : k2 ≠ k) : mapGet (mapSet c k v) k2 = mapGet c k2 := by
  induction c with
  | nil =>
    simp only [mapSet, mapGet]
    rw [if_neg (fun hh => h hh.symm)]
  | cons p t ih =>
    by_cases hp : p.1 = k
    · subst hp
      have hne : ¬(p.1 = k2) := fun hh => h hh.symm
      simp [mapSet, mapGet, hne]
    · simp only [mapSet, if_neg hp]
      by_cases hp2 : p.1 = k2
      · simp [mapGet, hp2]
      · simp [mapGet, hp2, ih]

/-- In a map with distinct keys, every entry is retrievable. -/
theorem mapGet_mem_nodup {V : Type} (c : List (String × V)) (hnd : keysNodup c)
    (p : String × V) (hp : p ∈ c) : mapGet c p.1 = some p.2 := by
  induction c with
  | nil => simp at hp
  | cons q t ih =>
    rcases List.mem_cons.mp hp with rfl | hp2
    · simp [mapGet]
    · have hq : q.1 ≠ p.1 := by
        intro he
        have := (List.nodup_cons.mp hnd).1
        exact this (he ▸ List.mem_map_of_mem Prod.fst hp2)
      simp only [mapGet, if_neg hq]
      exact ih (List.nodup_cons.mp hnd).2 hp2

/-- Claim C9: the export cache never exceeds 50 entries (every insert
preserves the bound); an insert at capacity evicts exactly the single
oldest-inserted entry — the result is the `Map.set` of the new entry into the
tail, FIFO by insertion order; and after inserting a fresh key at capacity,
the new entry and every surviving (more recently inserted) entry remain
retrievable. -/
theorem cacheResult_fifo {α : Type} (c : CadCache α) (k : String) (d : α) (now : Nat)
    (hnd : keysNodup c) :
    (c.length ≤ 50 → (cacheResult c k d now).length ≤ 50)
  ∧ (c.length = 50 → cacheResult c k d now = Planner.mapSet c.tail k ⟨d, now⟩)
  ∧ (c.length = 50 → hasKey c k = false →
      Planner.mapGet (cacheResult c k d now) k = some ⟨d, now⟩ ∧
      ∀ p ∈ c.tail, Planner.mapGet (cacheResult c k d now) p.1 = some p.2) := by
  have h2 : c.length = 50 → cacheResult c k d now = Planner.mapSet c.tail k ⟨d, now⟩ := by
    intro hc
    cases c with
    | nil => simp at hc
    | cons p t =>
      unfold cacheResult
      have hlen : MAX_CACHE_SIZE ≤ (p :: t).length := by
        simp only [MAX_CACHE_SIZE]
        omega
      rw [if_pos hlen]
      simp [mapDelete]
  refine ⟨?_, h2, ?_⟩
  · intro hle
    by_cases h50 : 50 ≤ c.length
    · have hc : c.length = 50 := le_antisymm hle h50
      rw [h2 hc]
      cases c with
      | nil => simp at hc
      | cons p t =>
        have : t.length = 49 := by simp at hc; omega
        calc (Planner.mapSet (p :: t).tail k ⟨d, now⟩).length
            ≤ (p :: t).tail.length + 1 := mapSet_length_le _ k _
          _ ≤ 50 := by simp [this]
    · unfold cacheResult
      rw [if_neg (show ¬(MAX_CACHE_SIZE ≤ c.length) by simp only [MAX_CACHE_SIZE]; omega)]
      calc (Planner.mapSet c k ⟨d, now⟩).length ≤ c.length + 1 := mapSet_length_le c k _
        _ ≤ 50 := by omega
  · intro hc hfresh
    rw [h2 hc]
    refine ⟨mapGet_mapSet_self c.tail k ⟨d, now⟩, ?_⟩
    intro p hp
    have hmem : ∀ q ∈ c, ¬(q.1 = k) := by
      intro q hq he
      have : c.any (fun p => p.1 = k) = true := List.any_eq_true.mpr ⟨q, hq, by simp [he]⟩
      rw [hasKey] at hfresh
      rw [hfresh] at this
      cases this
    have hptail : p ∈ c := by
      cases c with
      | nil => simp at hp
      | cons q t => exact List.mem_cons_of_mem q hp
    have hne : p.1 ≠ k := hmem p hptail
    rw [mapGet_mapSet_ne c.tail k p.1 ⟨d, now⟩ hne]
    have hndt : keysNodup c.tail := by
      cases c with
      | nil => simp at hp
      | cons q t => exact (List.nodup_cons.mp hnd).2
    exact mapGet_mem_nodup c.tail hndt p hp

/-- A concrete export cache at capacity: 50 distinct keys. -/
def c9Cache : CadCache Nat := (List.range 50).map (fun i => ("k" ++ Nat.repr i, ⟨i, 0⟩))

/-- Claim C9, witness: inserting the fresh 51st key into the concrete
at-capacity cache leaves the new entry retrievable. -/
theorem cacheResult_fifo_witness :
    Planner.mapGet (cacheResult c9Cache "fresh" 99 7) "fresh" = some ⟨99, 7⟩ :=
  ((cacheResult_fifo c9Cache "fresh" 99 7 (by decide)).2.2 (by decide) (by decide)).1

end Cad

namespace Cad

/-- Claim C10, counterexample: a plan without a `floors` array makes
`generateCADFiles` throw before its try block (the metadata initializer
dereferences `planData.floors[floorIndex]`), so the promise rejects instead
of resolving to a structured `{success: false}` object. -/
def c10NoFloors : CadPlanInput := ⟨"Residential", some ⟨40, 30⟩, some 100, none⟩

/-- Claim C10, counterexample theorem: the rejection on a floors-less plan. -/
theorem generateCADFiles_rejects_cex :
    generateCADFiles Dwg.envNoTools [] 0 c10NoFloors ⟨true, false, 0, 1⟩ =
      .error "TypeError: Cannot read properties of undefined (reading floorIndex)" := rfl

/-- Claim C10, amended: whenever the plan carries a `floors` array — even with
an out-of-range `floorIndex` — `generateCADFiles` never rejects: it resolves
to a structured outcome, and on an uncached out-of-range index that outcome is
exactly the `{success: false, error, metadata}` object. -/
theorem generateCADFiles_total (env : Dwg.ConvEnv) (cache : CadCache CadOutcome) (now : Nat)
    (planData : CadPlanInput) (opts : CadOptions) (fls : List Planner.NFloor)
    (h : planData.floors = some fls) :
    (generateCADFiles env cache now planData opts).isOk = true ∧
    (fls.get? opts.floorIndex = none →
      Planner.mapGet cache (generateCacheKey planData fls opts.floorIndex opts.scale) = none →
      generateCADFiles env cache now planData opts =
        .ok (.failure ("Floor index " ++ Nat.repr opts.floorIndex ++ " not found in plan data")
              ⟨planData.buildingType, "Ground Floor", 0, 0, now, opts.scale, none⟩, cache)) := by
  constructor
  · simp [generateCADFiles, h, Except.isOk, Except.toBool]
  · intro hfn hmg
    have hfn2 : fls[opts.floorIndex]? = none := by
      rw [← List.get?_eq_getElem?]
      exact hfn
    simp [generateCADFiles, runCadBody, h, hfn, hfn2, hmg, jsOrStr, jsOrNum]

/-- The floor list of the concrete witness plan. -/
def c10Floors : List Planner.NFloor :=
  [⟨"Ground", some 100,
    [⟨"r1", "Kitchen", "kitchen", some 100, some ⟨10, 10⟩, some ⟨0, 0⟩, [], []⟩]⟩]

/-- A concrete well-formed plan input for the witness. -/
def c10GoodPlan : CadPlanInput := ⟨"Residential", some ⟨40, 30⟩, some 100, some c10Floors⟩

/-- Claim C10, witness: the amended theorem applied to the concrete plan —
the promise resolves. -/
theorem generateCADFiles_total_witness :
    (generateCADFiles Dwg.envNoTools [] 0 c10GoodPlan ⟨true, false, 0, 1⟩).isOk = true :=
  (generateCADFiles_total Dwg.envNoTools [] 0 c10GoodPlan ⟨true, false, 0, 1⟩ c10Floors rfl).1

end Cad
